import Mathlib

/-!
Verification of the hymn-slide identification and extraction engine of the
Malayalam_Church_Songs repository against its specification.

The development shallowly embeds the relevant Python functions:

* `src/English/extract_english_hymns.py` — `extract_hymn_number`, the title
  normalizer and deduplication loop of `analyze_pptx_file`,
  `extract_title_from_slide_heading`, and the run-segmentation loop of
  `analyze_pptx_file`;
* `src/English/generate_english_hcs_ppt.py` — `find_best_song_source`
  (identical selection logic to the Malayalam variant), the per-section
  processors and `generate_presentation`, and the batch plan-file parser in
  `main`.

Regular expressions are embedded through a small backtracking matcher
(`HCS.Re`) that mirrors Python `re` semantics for the constructs the source
uses: leftmost search, alternation priority, greedy and lazy repetition,
one capture group, word boundaries and the `^`/`$` anchors.  Character
classes are modelled on their ASCII portion (`\s`, `\d`, `\w`); all texts
appearing in concrete theorems are ASCII apart from the explicitly listed
codepoints below.

A byte-level inspection of `extract_english_hymns.py` shows the file is
stored with a double-encoded ("mojibake") dash: where the generator file
contains a real en dash U+2013, the extractor's regex classes contain the
three literal characters U+201A, U+00C4, U+00EC (and U+00EE where an em dash
was intended).  The embedding reproduces those exact characters.
-/

namespace HCS

/-- Mojibake byte 1 of the en dash in `extract_english_hymns.py` (U+201A). -/
def chQS : Char := Char.ofNat 0x201A

/-- Mojibake byte 2 of the en dash in `extract_english_hymns.py` (U+00C4). -/
def chAu : Char := Char.ofNat 0xC4

/-- Mojibake byte 3 of the en dash in `extract_english_hymns.py` (U+00EC). -/
def chIg : Char := Char.ofNat 0xEC

/-- Mojibake final byte of the em dash in `extract_english_hymns.py` (U+00EE). -/
def chIc : Char := Char.ofNat 0xEE

/-- Left curly double quote U+201C (written `“` in the source). -/
def chLQ : Char := Char.ofNat 0x201C

/-- Right curly double quote U+201D (written `”` in the source). -/
def chRQ : Char := Char.ofNat 0x201D

/-- En dash U+2013, as it appears (correctly encoded) in
`generate_english_hcs_ppt.py`. -/
def chEnDash : Char := Char.ofNat 0x2013

/-- Python regex `\d` (ASCII portion). -/
def isDigitB (c : Char) : Bool := '0' ≤ c && c ≤ '9'

/-- Python regex `\s` (ASCII portion: space, tab, newline, CR, VT, FF). -/
def isWsB (c : Char) : Bool :=
  c == ' ' || c == '\t' || c == '\n' || c == '\r' ||
  c == Char.ofNat 0x0B || c == Char.ofNat 0x0C

/-- Python regex `\w` (ASCII portion), used for `\b` word boundaries. -/
def isWordB (c : Char) : Bool :=
  isDigitB c || ('a' ≤ c && c ≤ 'z') || ('A' ≤ c && c ≤ 'Z') || c == '_'

/-- Abstract syntax of the regular-expression fragment used by the source.
Every repetition in the source's patterns is over a single-character class,
so repetition constructors carry a character predicate directly. -/
inductive Re : Type where
  | eps
  | ch (p : Char → Bool)
  | seq (a b : Re)
  | alt (a b : Re)
  | opt (a : Re)
  | starP (p : Char → Bool)
  | starL (p : Char → Bool)
  | repP (p : Char → Bool) (lo hi : Nat)
  | grp (a : Re)
  | wb
  | bos
  | eos

/-- Continuation type of the matcher: previous character, remaining input,
capture of group 1 so far; result is `none` (fail) or `some cap`. -/
abbrev MK := Option Char → List Char → Option (List Char) → Option (Option (List Char))

/-- Greedy Kleene star over a character class: consume as much as possible,
backtracking to shorter matches on failure of the continuation. -/
def starGoG (p : Char → Bool) (k : MK) : Option Char → List Char → Option (List Char) →
    Option (Option (List Char))
  | prev, [], cap => k prev [] cap
  | prev, c :: t, cap =>
    if p c then starGoG p k (some c) t cap <|> k prev (c :: t) cap
    else k prev (c :: t) cap

/-- Lazy Kleene star over a character class: try the shortest match first. -/
def starGoL (p : Char → Bool) (k : MK) : Option Char → List Char → Option (List Char) →
    Option (Option (List Char))
  | prev, [], cap => k prev [] cap
  | prev, c :: t, cap =>
    k prev (c :: t) cap <|> (if p c then starGoL p k (some c) t cap else none)

/-- Greedy bounded repetition `p{lo,hi}` over a character class. -/
def repGoG (p : Char → Bool) (k : MK) : Nat → Nat → Option Char → List Char →
    Option (List Char) → Option (Option (List Char))
  | lo, 0, prev, s, cap => if lo = 0 then k prev s cap else none
  | lo, _ + 1, prev, [], cap => if lo = 0 then k prev [] cap else none
  | lo, hi + 1, prev, c :: t, cap =>
    if p c then
      match lo with
      | 0 => repGoG p k 0 hi (some c) t cap <|> k prev (c :: t) cap
      | lo' + 1 => repGoG p k lo' hi (some c) t cap
    else if lo = 0 then k prev (c :: t) cap else none

/-- Backtracking matcher in continuation-passing style.  Alternatives are
tried in Python `re` priority order (left alternative first, greedy
quantifiers longest-first, lazy quantifiers shortest-first). -/
def mtch : Re → Option Char → List Char → Option (List Char) → MK →
    Option (Option (List Char))
  | .eps, prev, s, cap, k => k prev s cap
  | .ch _, _, [], _, _ => none
  | .ch p, _, c :: t, cap, k => if p c then k (some c) t cap else none
  | .seq a b, prev, s, cap, k => mtch a prev s cap (fun p2 s2 c2 => mtch b p2 s2 c2 k)
  | .alt a b, prev, s, cap, k => mtch a prev s cap k <|> mtch b prev s cap k
  | .opt a, prev, s, cap, k => mtch a prev s cap k <|> k prev s cap
  | .starP p, prev, s, cap, k => starGoG p k prev s cap
  | .starL p, prev, s, cap, k => starGoL p k prev s cap
  | .repP p lo hi, prev, s, cap, k => repGoG p k lo hi prev s cap
  | .grp a, prev, s, cap, k =>
      mtch a prev s cap (fun p2 s2 _ => k p2 s2 (some (s.take (s.length - s2.length))))
  | .wb, prev, s, cap, k =>
      let pw := match prev with | some c => isWordB c | none => false
      let nw := match s with | c :: _ => isWordB c | [] => false
      if pw ≠ nw then k prev s cap else none
  | .bos, prev, s, cap, k => match prev with | none => k prev s cap | some _ => none
  | .eos, prev, s, cap, k =>
      match s with
      | [] => k prev s cap
      | [c] => if c == '\n' then k prev s cap else none
      | _ => none

/-- Python `re.search`: try a match at each position from the left; `prev`
tracks the character before the current position (for `\b` and `^`). -/
def searchAux (r : Re) : Option Char → List Char → Option (Option (List Char))
  | prev, s =>
    match mtch r prev s none (fun _ _ cap => some cap) with
    | some res => some res
    | none =>
      match s with
      | [] => none
      | c :: t => searchAux r (some c) t

/-- Search on a whole input (position 0 has no previous character). -/
def research (r : Re) (s : List Char) : Option (Option (List Char)) :=
  searchAux r none s

/-- Whether `re.search` finds any match. -/
def reTest (r : Re) (s : List Char) : Bool := (research r s).isSome

/-- Capture of group 1 of the leftmost match (Python `match.group(1)`). -/
def reGroup1 (r : Re) (s : List Char) : Option (List Char) :=
  match research r s with
  | some (some g) => some g
  | _ => none

/-- Remaining input after a match anchored at the current position, used to
implement `re.sub` scanning. -/
def matchRemaining (r : Re) (prev : Option Char) (s : List Char) : Option (List Char) :=
  match mtch r prev s none (fun _ rest _ => some (some rest)) with
  | some (some rest) => some rest
  | _ => none

/-- Python `re.sub` worker: replace every non-overlapping match, scanning
left to right.  All patterns the source passes to `re.sub` match at least
one character; the zero-width branch is unreachable for them and falls back
to emitting the replacement and advancing one character. -/
def gsubAux (r : Re) (repl : List Char) : Nat → Option Char → List Char → List Char
  | 0, _, s => s
  | fuel + 1, prev, s =>
    match matchRemaining r prev s with
    | some rest =>
        if rest.length < s.length then
          let consumed := s.take (s.length - rest.length)
          repl ++ gsubAux r repl fuel ((consumed.getLast?).orElse (fun _ => prev)) rest
        else
          match s with
          | [] => repl
          | c :: t => repl ++ c :: gsubAux r repl fuel (some c) t
    | none =>
      match s with
      | [] => []
      | c :: t => c :: gsubAux r repl fuel (some c) t

/-- Python `re.sub(pattern, repl, s)` for the patterns used by the source. -/
def gsub (r : Re) (repl : String) (s : String) : String :=
  String.mk (gsubAux r repl.data (s.data.length + 1) none s.data)

/-- Single literal character (case-sensitive). -/
def rch (c : Char) : Re := Re.ch (fun x => x == c)

/-- Single literal character under `re.IGNORECASE` (ASCII case folding). -/
def rchCI (c : Char) : Re := Re.ch (fun x => x.toLower == c.toLower)

/-- Character class `[...]`. -/
def rcls (l : List Char) : Re := Re.ch (fun x => l.contains x)

/-- Case-sensitive literal string. -/
def rlit (s : String) : Re := s.data.foldr (fun c acc => Re.seq (rch c) acc) Re.eps

/-- Literal string under `re.IGNORECASE`. -/
def rlitCI (s : String) : Re := s.data.foldr (fun c acc => Re.seq (rchCI c) acc) Re.eps

/-- Literal character list (case-sensitive), for `re.escape(num)`. -/
def rlitChars (l : List Char) : Re := l.foldr (fun c acc => Re.seq (rch c) acc) Re.eps

/-- Sequencing of a pattern list. -/
def rseq (l : List Re) : Re := l.foldr Re.seq Re.eps

/-- Pattern `\s*`. -/
def rws0 : Re := Re.starP isWsB

/-- Pattern `\s+`. -/
def rws1 : Re := Re.seq (Re.ch isWsB) (Re.starP isWsB)

/-- Greedy `p+`. -/
def rplus (p : Char → Bool) : Re := Re.seq (Re.ch p) (Re.starP p)

/-- Capture group `(\d{1,4})` shared by all hymn-number patterns. -/
def rdigits14 : Re := Re.grp (Re.repP isDigitB 1 4)

/-- Class `[-‚Äì]` of `extract_english_hymns.py` (ASCII dash plus the three
mojibake characters standing where an en dash was intended). -/
def dashCls : List Char := ['-', chQS, chAu, chIg]

/-- Class `[\:\-‚Äì]` of `extract_english_hymns.py`. -/
def colonDashCls : List Char := [':', '-', chQS, chAu, chIg]

/-- Numeric value of a digit string (Python `int(num)` on 1–4 digits). -/
def digitsVal (l : List Char) : Nat := l.foldl (fun a c => 10 * a + (c.toNat - 48)) 0

/-! Patterns of `extract_hymn_number` (extract_english_hymns.py lines 37–58),
in source order. -/

/-- Pattern `Hymn\s*No\.?[\:\-‚Äì]?\s*[\(\[]?(\d{1,4})[\)\]]?`. -/
def hymnPat1 : Re :=
  rseq [rlitCI "Hymn", rws0, rlitCI "No", Re.opt (rch '.'), Re.opt (rcls colonDashCls),
        rws0, Re.opt (rcls ['(', '[']), rdigits14, Re.opt (rcls [')', ']'])]

/-- Pattern `Hymn\s*[-‚Äì]\s*(\d{1,4})\b`. -/
def hymnPat2 : Re :=
  rseq [rlitCI "Hymn", rws0, rcls dashCls, rws0, rdigits14, Re.wb]

/-- Pattern `Song\.\s*No\.?\s*[\:\-‚Äì]\s*(\d{1,4})`. -/
def hymnPat3 : Re :=
  rseq [rlitCI "Song", rch '.', rws0, rlitCI "No", Re.opt (rch '.'), rws0,
        rcls colonDashCls, rws0, rdigits14]

/-- Pattern `Song\s*No\.?\s*[-‚Äì]\s*(\d{1,4})`. -/
def hymnPat4 : Re :=
  rseq [rlitCI "Song", rws0, rlitCI "No", Re.opt (rch '.'), rws0, rcls dashCls,
        rws0, rdigits14]

/-- Pattern `Song\s*No\.?\s*[\:\-‚Äì]?\s*(\d{1,4})`. -/
def hymnPat5 : Re :=
  rseq [rlitCI "Song", rws0, rlitCI "No", Re.opt (rch '.'), rws0,
        Re.opt (rcls colonDashCls), rws0, rdigits14]

/-- Pattern `Song\s+no\.?\s*[\:\-‚Äì]?\s*(\d{1,4})`. -/
def hymnPat6 : Re :=
  rseq [rlitCI "Song", rws1, rlitCI "no", Re.opt (rch '.'), rws0,
        Re.opt (rcls colonDashCls), rws0, rdigits14]

/-- Pattern `(?:Offertory|Confession)\s*[-‚Äì]\s*(\d{1,4})\b`. -/
def hymnPat7 : Re :=
  rseq [Re.alt (rlitCI "Offertory") (rlitCI "Confession"), rws0, rcls dashCls,
        rws0, rdigits14, Re.wb]

/-- Pattern `(?:Holy\s+)?Communion\s*[-‚Äì]\s*(?:(?:Song|Hymn)\s+no\.?\s*)?(\d{1,4})(?:\s|$)`. -/
def hymnPat8 : Re :=
  rseq [Re.opt (rseq [rlitCI "Holy", rws1]), rlitCI "Communion", rws0, rcls dashCls,
        rws0,
        Re.opt (rseq [Re.alt (rlitCI "Song") (rlitCI "Hymn"), rws1, rlitCI "no",
                      Re.opt (rch '.'), rws0]),
        rdigits14, Re.alt (Re.ch isWsB) Re.eos]

/-- Pattern `Holy\s+Communion\s*[-‚Äì]\s*[^(]*[\(\[](\d{1,4})[\)\]]`. -/
def hymnPat9 : Re :=
  rseq [rlitCI "Holy", rws1, rlitCI "Communion", rws0, rcls dashCls, rws0,
        Re.starP (fun c => !(c == '(')), rcls ['(', '['], rdigits14, rcls [')', ']']]

/-- Pattern `(?:Offertory|Confession)\s*[-‚Äì]\s*(?:Song\s+no\.?\s*)?(\d{1,4})(?:\s|$)`. -/
def hymnPat10 : Re :=
  rseq [Re.alt (rlitCI "Offertory") (rlitCI "Confession"), rws0, rcls dashCls, rws0,
        Re.opt (rseq [rlitCI "Song", rws1, rlitCI "no", Re.opt (rch '.'), rws0]),
        rdigits14, Re.alt (Re.ch isWsB) Re.eos]

/-- Pattern `(?:\(|\[)(\d{1,4})(?:\)|\])`, flagged to skip numbers below 5. -/
def hymnPat11 : Re :=
  rseq [Re.alt (rch '(') (rch '['), rdigits14, Re.alt (rch ')') (rch ']')]

/-- The ordered pattern list of `extract_hymn_number`; the Boolean is the
`skip_small_nums` flag (set only on the generic parenthetical pattern). -/
def hymnNumPatternItems : List (Bool × Re) :=
  [(false, hymnPat1), (false, hymnPat2), (false, hymnPat3), (false, hymnPat4),
   (false, hymnPat5), (false, hymnPat6), (false, hymnPat7), (false, hymnPat8),
   (false, hymnPat9), (false, hymnPat10), (true, hymnPat11)]

/-- The slide-footer exclusion check of `extract_hymn_number` (lines 78–81):
`re.search(r'\b\d+\s+of\s+\d+.*?\b' + re.escape(num) + r'\b', text)`.
Unlike the number patterns it is compiled without `re.IGNORECASE`. -/
def footerExclRe (num : List Char) : Re :=
  rseq [Re.wb, rplus isDigitB, rws1, rlit "of", rws1, rplus isDigitB,
        Re.starL (fun c => !(c == '\n')), Re.wb, rlitChars num, Re.wb]

/-- Inner loop of `extract_hymn_number`: first pattern whose leftmost match
survives the small-number filter and the footer exclusion wins; a rejected
match moves on to the next pattern. -/
def extractHymnGo : List (Bool × Re) → List Char → Option (List Char)
  | [], _ => none
  | (skipSmall, r) :: rest, t =>
    match reGroup1 r t with
    | none => extractHymnGo rest t
    | some num =>
      if skipSmall ∧ digitsVal num < 5 then extractHymnGo rest t
      else if reTest (footerExclRe num) t then extractHymnGo rest t
      else some num

/-- Embedding of `extract_hymn_number(text)` (extract_english_hymns.py
lines 35–84). -/
def extract_hymn_number (text : String) : Option String :=
  (extractHymnGo hymnNumPatternItems text.data).map String.mk

/-- Prefix test on character lists (helper for Python substring `in`). -/
def listIsPrefix : List Char → List Char → Bool
  | [], _ => true
  | _ :: _, [] => false
  | a :: as, b :: bs => a == b && listIsPrefix as bs

/-- Substring containment on character lists. -/
def containsSub (needle : List Char) : List Char → Bool
  | [] => listIsPrefix needle []
  | c :: t => listIsPrefix needle (c :: t) || containsSub needle t

/-- Python `needle in hay` substring containment. -/
def containsStr (needle hay : String) : Bool := containsSub needle.data hay.data

/-- Key lemma for the footer-exclusion invariant: whatever number the
pattern loop returns has passed the footer-exclusion check. -/
theorem extractHymnGo_footer (l : List (Bool × Re)) (t : List Char)
    (num : List Char) (h : extractHymnGo l t = some num) :
    reTest (footerExclRe num) t = false := by
  induction l with
  | nil => simp [extractHymnGo] at h
  | cons hd tl ih =>
    obtain ⟨skipSmall, r⟩ := hd
    rw [extractHymnGo] at h
    split at h
    · exact ih h
    · split at h
      · exact ih h
      · split at h
        · exact ih h
        · next hf =>
          cases h
          simpa using hf

/-- Claim C3, counterexample.  The text "Hymn No 2 of 4" contains the
"X of Y" slide-footer pagination string "2 of 4" whose X is 2, and the
candidate hymn number extracted from "Hymn No 2" equals that X; the claim
says the number must then not be returned, yet `extract_hymn_number`
returns "2": the code's exclusion only fires when the candidate number
re-occurs as a delimited word somewhere after the footer string. -/
theorem C3_footer_counterexample :
    extract_hymn_number "Hymn No 2 of 4" = some "2" ∧
    containsStr "2 of 4" "Hymn No 2 of 4" = true := by
  exact ⟨rfl, rfl⟩

/-- Claim C3, amended.  For every slide text and every number, if
`extract_hymn_number` returns the number then the text has no match of the
footer-exclusion pattern for that number — i.e. no "X of Y" pagination
string followed later in the text by a word-delimited occurrence of the
returned number.  (A candidate equal to the footer's X whose only
occurrence lies at or before the footer can still be returned.) -/
theorem C3_extract_hymn_number_footer_exclusion (t n : String)
    (h : extract_hymn_number t = some n) :
    reTest (footerExclRe n.data) t.data = false := by
  unfold extract_hymn_number at h
  cases hg : extractHymnGo hymnNumPatternItems t.data with
  | none => rw [hg] at h; cases h
  | some num =>
    rw [hg] at h
    cases h
    exact extractHymnGo_footer _ _ _ hg

/-- Witness for C3: "171" is returned from "Hymn No 171", so by the
theorem the footer-exclusion pattern for "171" has no match there. -/
theorem C3_extract_hymn_number_footer_exclusion_witness :
    extract_hymn_number "Hymn No 171" = some "171" ∧
    reTest (footerExclRe ("171" : String).data) ("Hymn No 171" : String).data = false :=
  ⟨rfl, C3_extract_hymn_number_footer_exclusion "Hymn No 171" "171" rfl⟩

/-- Claim C4, counterexample.  The claim quantifies over every text
containing the pattern "Hymn No 171"; the text "Hymn No 9 Hymn No 171"
contains it, yet the leftmost match of the first pattern wins and the
function returns "9", not "171". -/
theorem C4_leftmost_counterexample :
    containsStr "Hymn No 171" "Hymn No 9 Hymn No 171" = true ∧
    extract_hymn_number "Hymn No 9 Hymn No 171" = some "9" := by
  exact ⟨rfl, rfl⟩

/-- Claim C4, amended.  For the text "Hymn No 171" itself (and any text in
which that pattern is the leftmost surviving match) the function returns
"171"; a text whose only number-bearing pattern is the bare parenthetical
"(3)" yields no number (generic parenthetical numbers below 5 are
rejected); a text whose only pattern is "(42)" yields "42". -/
theorem C4_extract_hymn_number_concrete :
    extract_hymn_number "Hymn No 171" = some "171" ∧
    extract_hymn_number "Song Title (3)" = none ∧
    extract_hymn_number "Song Title (42)" = some "42" := by
  exact ⟨rfl, rfl, rfl⟩

/-- ASCII apostrophe (the source class `[\'\'\'\']` is four escaped ASCII
apostrophes). -/
def chApos : Char := Char.ofNat 39

/-- Python `str.strip()` on a character list (ASCII whitespace). -/
def pyStripList (l : List Char) : List Char :=
  ((l.dropWhile isWsB).reverse.dropWhile isWsB).reverse

/-- Python `str.strip()`. -/
def pyStrip (s : String) : String := String.mk (pyStripList s.data)

/-- Python `str.lower()` (ASCII case folding). -/
def pyLower (s : String) : String := String.mk (s.data.map Char.toLower)

/-- Class `[-‚Äì‚Äî]` of the normalizer (ASCII dash plus the mojibake
characters standing where the en dash and em dash were intended). -/
def emDashCls : List Char := ['-', chQS, chAu, chIg, chIc]

/-- Quote class `["“”\'\'\'\']` of the normalizer. -/
def quoteCls : List Char := ['"', chLQ, chRQ, chApos]

/-- Title normalization used as the deduplication key in
`analyze_pptx_file` (extract_english_hymns.py lines 659–672 and the
identical block at lines 685–691): strip version markers, collapse the
dash class, drop a quote following a dash, strip the leading
dash/space/quote run, strip trailing quotes, collapse whitespace, strip
and lowercase. -/
def normalize_title (hymn_title : String) : String :=
  let t1 := gsub (rseq [rws1, rchCI 'v', rplus isDigitB, rws0, Re.eos]) "" hymn_title
  let t2 := gsub (rplus (fun c => emDashCls.contains c)) "-" t1
  let t3 := gsub (rseq [rcls dashCls, rws0, rcls ['"', chLQ, chRQ]]) "- " t2
  let t4 := gsub (Re.seq Re.bos
      (rplus (fun c => dashCls.contains c || isWsB c || quoteCls.contains c))) "" t3
  let t5 := gsub (rseq [rplus (fun c => quoteCls.contains c), Re.eos]) "" t4
  let t6 := gsub rws1 " " t5
  pyLower (pyStrip t6)

/-- Deduplication loop of `analyze_pptx_file` (extract_english_hymns.py
lines 643–701), parameterized by the projections reading a run's
`hymn_number` and `title` fields: primary key is the hymn number when
present, else the normalized title; a secondary cross-check drops any run
whose normalized title was already kept under any key. -/
def dedupGo {α : Type} (num title : α → String) :
    List α → List String → List String → List α
  | [], _, _ => []
  | h :: rest, seenK, seenN =>
    let hymn_num := num h
    let hymn_title := pyStrip (title h)
    let dedup_key : Option String :=
      if hymn_num ≠ "" then some ("num:" ++ hymn_num)
      else if hymn_title ≠ "" then some ("title:" ++ normalize_title hymn_title)
      else none
    if (match dedup_key with | some k => seenK.contains k | none => false) then
      dedupGo num title rest seenK seenN
    else
      if hymn_title ≠ "" then
        let ntitle := normalize_title hymn_title
        if seenN.contains ntitle then dedupGo num title rest seenK seenN
        else
          h :: dedupGo num title rest
            (match dedup_key with | some k => k :: seenK | none => seenK)
            (ntitle :: seenN)
      else
        h :: dedupGo num title rest
          (match dedup_key with | some k => k :: seenK | none => seenK) seenN

/-- Entry point of the deduplication pass (`seen_hymns` and
`seen_normalized_titles` start empty). -/
def deduplicate_hymns {α : Type} (num title : α → String) (hymns : List α) : List α :=
  dedupGo num title hymns [] []

/-- Claim C5, counterexample.  The extractor's normalizer does not map
"O for a Thousand Tongues" and "– O for a thousand tongues –" (en dashes,
as in the claim) to the same key: the regex classes of
`extract_english_hymns.py` contain mojibake characters rather than the en
dash, so neither the leading nor the trailing dash is stripped — and the
trailing-strip class contains only quotes in any case.  Consequently both
runs survive deduplication. -/
theorem C5_normalizer_counterexample :
    normalize_title "O for a Thousand Tongues" ≠
      normalize_title "– O for a thousand tongues –" ∧
    (deduplicate_hymns Prod.fst Prod.snd
      [("", "O for a Thousand Tongues"), ("", "– O for a thousand tongues –")]).length
      = 2 := by
  exact ⟨by decide, rfl⟩

set_option maxHeartbeats 2000000 in
/-- Claim C5, amended.  With a leading ASCII dash and no trailing dash the
claimed behaviour holds: "O for a Thousand Tongues" and
"- O for a thousand tongues" normalize to the same key and only the first
of the two runs survives deduplication. -/
theorem C5_normalizer_dedup_amended :
    normalize_title "O for a Thousand Tongues" =
      normalize_title "- O for a thousand tongues" ∧
    deduplicate_hymns Prod.fst Prod.snd
      [("", "O for a Thousand Tongues"), ("", "- O for a thousand tongues")]
      = [("", "O for a Thousand Tongues")] := by
  exact ⟨by decide, by decide⟩

/-! Slide model.  python-pptx exposes a slide as a list of shapes; a shape
may carry a text frame, which is a list of paragraphs, each a list of runs;
`text_frame.text` joins paragraph texts with newlines and a paragraph's
text is the concatenation of its runs. -/

/-- A shape: `text_frame` is `none` when `shape.has_text_frame` is false,
otherwise the list of paragraphs, each given by its runs' texts. -/
structure PShape where
  text_frame : Option (List (List String))

/-- A slide: its list of shapes. -/
structure PSlide where
  shapes : List PShape

/-- Text of one paragraph (python-pptx `paragraph.text`). -/
def paraText (runs : List String) : String := String.join runs

/-- Text of a text frame (python-pptx `text_frame.text`). -/
def frameText (paras : List (List String)) : String :=
  String.intercalate "\n" (paras.map paraText)

/-- Predicate for `.` in a Python regex (any character except newline). -/
def notNl (c : Char) : Bool := !(c == '\n')

/-- Greedy `(.+)` capture group. -/
def grpDotPlusG : Re := Re.grp (Re.seq (Re.ch notNl) (Re.starP notNl))

/-- Lazy `(.+?)` capture group. -/
def grpDotPlusL : Re := Re.grp (Re.seq (Re.ch notNl) (Re.starL notNl))

/-- Alternation of a pattern list in source order (Python tries the
leftmost alternative first). -/
def raltList : List Re → Re
  | [] => Re.eps
  | [r] => r
  | r :: rest => Re.alt r (raltList rest)

/-- The section-label alternation
`(?:Offertory|Opening\s+Hymn?|Closing\s+Hymn?|Communion|Holy\s+Communion|Confession|Thanksgiving)`
(note `Hymn?` is "Hym" with an optional final "n"). -/
def sectionLabelAlt : Re :=
  raltList
    [rlitCI "Offertory",
     rseq [rlitCI "Opening", rws1, rlitCI "Hym", Re.opt (rchCI 'n')],
     rseq [rlitCI "Closing", rws1, rlitCI "Hym", Re.opt (rchCI 'n')],
     rlitCI "Communion",
     rseq [rlitCI "Holy", rws1, rlitCI "Communion"],
     rlitCI "Confession",
     rlitCI "Thanksgiving"]

/-- Pattern `^Part\s+\d+\s*:\s*(.+?)\s*\(\d+\)$` (IGNORECASE), used on
individual runs in `extract_title_from_slide_heading`. -/
def partPatternAnch : Re :=
  rseq [Re.bos, rlitCI "Part", rws1, rplus isDigitB, rws0, rch ':', rws0,
        grpDotPlusL, rws0, rch '(', rplus isDigitB, rch ')', Re.eos]

/-- Pattern `Part\s+\d+\s*:\s*(.+?)\s*\(\d+\)` (IGNORECASE, unanchored),
used on lines in the fallback phase. -/
def partPatternLoose : Re :=
  rseq [rlitCI "Part", rws1, rplus isDigitB, rws0, rch ':', rws0,
        grpDotPlusL, rws0, rch '(', rplus isDigitB, rch ')']

/-- The three `section_patterns` of `extract_title_from_slide_heading`
(extract_english_hymns.py lines 131–135), in source order. -/
def sectionPatterns : List Re :=
  [rseq [Re.bos, sectionLabelAlt, rws0, rcls dashCls, rws0, grpDotPlusG, Re.eos],
   rseq [Re.bos, rlitCI "Hymn", rws1, Re.opt (rseq [rlitCI "No", Re.opt (rch '.')]),
         rws0, rplus isDigitB, rws0, rcls dashCls, rws0, grpDotPlusG, Re.eos],
   rseq [Re.bos, sectionLabelAlt, rws0, rcls dashCls, rws0, rlitCI "Song",
         Re.opt (rch '.'), rws0, Re.opt (rseq [rlitCI "No", Re.opt (rch '.')]), rws0,
         rplus isDigitB, rws0, rcls dashCls, rws0, grpDotPlusG, Re.eos]]

/-- Cleanup pattern `\s*\d+\s*:\s*\d+\s+of\s+\d+.*$` (remove "1:2 of 3"
footers from a candidate title). -/
def cleanupFooterRe : Re :=
  rseq [rws0, rplus isDigitB, rws0, rch ':', rws0, rplus isDigitB, rws1,
        rlit "of", rws1, rplus isDigitB, Re.starP notNl, Re.eos]

/-- Cleanup pattern `\s+\d+\s*$` (remove trailing numbers). -/
def cleanupTrailNumRe : Re := rseq [rws1, rplus isDigitB, rws0, Re.eos]

/-- Cleanup pattern `[\.!]+$` (remove trailing punctuation). -/
def cleanupTrailPunctRe : Re :=
  rseq [rplus (fun c => c == '.' || c == '!'), Re.eos]

/-- Footer test `\d+\s*:\s*\d+\s+of\s+\d+` used on fallback lines. -/
def footerLineRe : Re :=
  rseq [rplus isDigitB, rws0, rch ':', rws0, rplus isDigitB, rws1, rlit "of",
        rws1, rplus isDigitB]

/-- Test `^\d+$` (`re.match` is anchored at the start). -/
def digitOnlyRe : Re := rseq [Re.bos, rplus isDigitB, Re.eos]

/-- Python `str.isalpha` count over a string (ASCII model). -/
def countAlpha (s : String) : Nat := (s.data.filter (fun c => c.isAlpha)).length

/-- Python `str.isspace` count over a string (ASCII model). -/
def countSpace (s : String) : Nat := (s.data.filter isWsB).length

/-- The hymn-indicator test
`any(x in title.lower() for x in ['song.no:', 'song no:', 'hymn.no:', 'hymn no:'])`. -/
def titleIndicator (title : String) : Bool :=
  let l := pyLower title
  containsStr "song.no:" l || containsStr "song no:" l ||
  containsStr "hymn.no:" l || containsStr "hymn no:" l

/-- Section-pattern loop of `extract_title_from_slide_heading` (lines
137–156): first pattern whose cleaned title passes the indicator test, the
length window and the 10-letter minimum wins. -/
def trySectionPats : List Re → String → Option String
  | [], _ => none
  | p :: rest, text =>
    match reGroup1 p text.data with
    | none => trySectionPats rest text
    | some g =>
      let t0 := pyStrip (String.mk g)
      let t1 := gsub cleanupFooterRe "" t0
      let t2 := gsub cleanupTrailNumRe "" t1
      let t3 := gsub cleanupTrailPunctRe "" t2
      if titleIndicator t3 then trySectionPats rest text
      else if t3.length > 5 ∧ t3.length < 100 then
        if countAlpha t3 > 10 then some t3 else trySectionPats rest text
      else trySectionPats rest text

/-- Per-run processing of the first phase (lines 114–156): skip short runs,
try the anchored Part pattern (returned when longer than 5 characters),
then the section patterns. -/
def tryRunText (t0 : String) : Option String :=
  let text := pyStrip t0
  if text.length < 10 then none
  else
    match reGroup1 partPatternAnch text.data with
    | some g =>
      let title := pyStrip (String.mk g)
      if title.length > 5 then some title
      else trySectionPats sectionPatterns text
    | none => trySectionPats sectionPatterns text

/-- First phase, over a paragraph's runs. -/
def scanRuns : List String → Option String
  | [] => none
  | r :: rest =>
    match tryRunText r with
    | some t => some t
    | none => scanRuns rest

/-- First phase, over a text frame's paragraphs. -/
def scanParas : List (List String) → Option String
  | [] => none
  | p :: rest =>
    match scanRuns p with
    | some t => some t
    | none => scanParas rest

/-- First phase, over a slide's shapes. -/
def scanShapesHeading : List PShape → Option String
  | [] => none
  | sh :: rest =>
    match sh.text_frame with
    | none => scanShapesHeading rest
    | some paras =>
      match scanParas paras with
      | some t => some t
      | none => scanShapesHeading rest

/-- Fallback-phase checks applied to a line after the loose Part pattern
(lines 174–187): skip short or digit-only lines and footer lines; a line
with more than 15 letters and at least 2 spaces is cleaned of trailing
numbers and returned capped at 60 characters. -/
def fallbackLineTail (line : String) : Option String :=
  if line.length < 10 ∨ reTest digitOnlyRe line.data then none
  else if reTest footerLineRe line.data then none
  else
    if countAlpha line > 15 ∧ countSpace line ≥ 2 then
      let line2 := gsub cleanupTrailNumRe "" line
      if line2.length > 5 then some (String.mk (line2.data.take 60)) else none
    else none

/-- Fallback-phase processing of one line (lines 164–187). -/
def tryLine (line0 : String) : Option String :=
  let line := pyStrip line0
  match reGroup1 partPatternLoose line.data with
  | some g =>
    let title := pyStrip (String.mk g)
    if title.length > 5 then some title else fallbackLineTail line
  | none => fallbackLineTail line

/-- Fallback phase, over the lines of one shape's text. -/
def scanLines : List String → Option String
  | [] => none
  | l :: rest =>
    match tryLine l with
    | some t => some t
    | none => scanLines rest

/-- Fallback phase, over a slide's shapes (lines 159–187). -/
def scanShapesFallback : List PShape → Option String
  | [] => none
  | sh :: rest =>
    match sh.text_frame with
    | none => scanShapesFallback rest
    | some paras =>
      match scanLines ((pyStrip (frameText paras)).splitOn "\n") with
      | some t => some t
      | none => scanShapesFallback rest

/-- Embedding of `extract_title_from_slide_heading(slide)`
(extract_english_hymns.py lines 103–189).  The Python function returns the
empty string when nothing is found. -/
def extract_title_from_slide_heading (slide : PSlide) : String :=
  match scanShapesHeading slide.shapes with
  | some t => t
  | none =>
    match scanShapesFallback slide.shapes with
    | some t => t
    | none => ""

/-- Every title returned by the section-pattern loop is longer than 5
characters. -/
theorem trySectionPats_length (l : List Re) (text t : String)
    (h : trySectionPats l text = some t) : 5 < t.length := by
  induction l with
  | nil => simp [trySectionPats] at h
  | cons p rest ih =>
    rw [trySectionPats] at h
    split at h
    · exact ih h
    · try dsimp only at h
      split at h
      · exact ih h
      · split at h
        · split at h
          · next hlen _ =>
            cases h
            exact hlen.1
          · exact ih h
        · exact ih h

/-- Every title returned by the per-run processing is longer than 5
characters. -/
theorem tryRunText_length (r t : String) (h : tryRunText r = some t) :
    5 < t.length := by
  rw [tryRunText] at h
  try dsimp only at h
  split at h
  · cases h
  · split at h
    · try dsimp only at h
      split at h
      · next hlen =>
        cases h
        exact hlen
      · exact trySectionPats_length _ _ _ h
    · exact trySectionPats_length _ _ _ h

/-- Length bound through the run scan. -/
theorem scanRuns_length (l : List String) (t : String)
    (h : scanRuns l = some t) : 5 < t.length := by
  induction l with
  | nil => simp [scanRuns] at h
  | cons r rest ih =>
    rw [scanRuns] at h
    split at h
    · next t2 hr =>
      cases h
      exact tryRunText_length _ _ hr
    · exact ih h

/-- Length bound through the paragraph scan. -/
theorem scanParas_length (l : List (List String)) (t : String)
    (h : scanParas l = some t) : 5 < t.length := by
  induction l with
  | nil => simp [scanParas] at h
  | cons p rest ih =>
    rw [scanParas] at h
    split at h
    · next t2 hr =>
      cases h
      exact scanRuns_length _ _ hr
    · exact ih h

/-- Length bound through the first-phase shape scan. -/
theorem scanShapesHeading_length (l : List PShape) (t : String)
    (h : scanShapesHeading l = some t) : 5 < t.length := by
  induction l with
  | nil => simp [scanShapesHeading] at h
  | cons sh rest ih =>
    rw [scanShapesHeading] at h
    split at h
    · exact ih h
    · split at h
      · next t2 hr =>
        cases h
        exact scanParas_length _ _ hr
      · exact ih h

/-- Length bound for the fallback tail checks. -/
theorem fallbackLineTail_length (line t : String)
    (h : fallbackLineTail line = some t) : 5 < t.length := by
  rw [fallbackLineTail] at h
  split at h
  · cases h
  · split at h
    · cases h
    · split at h
      · try dsimp only at h
        split at h
        · next hlen =>
          cases h
          have h1 : (String.mk (List.take 60 (gsub cleanupTrailNumRe "" line).data)).length
              = min 60 (gsub cleanupTrailNumRe "" line).data.length :=
            List.length_take _ _
          rw [h1]
          exact lt_min_iff.mpr ⟨by norm_num, hlen⟩
        · cases h
      · cases h

/-- Length bound for the fallback per-line processing. -/
theorem tryLine_length (l t : String) (h : tryLine l = some t) :
    5 < t.length := by
  rw [tryLine] at h
  try dsimp only at h
  split at h
  · try dsimp only at h
    split at h
    · next hlen =>
      cases h
      exact hlen
    · exact fallbackLineTail_length _ _ h
  · exact fallbackLineTail_length _ _ h

/-- Length bound through the fallback line scan. -/
theorem scanLines_length (l : List String) (t : String)
    (h : scanLines l = some t) : 5 < t.length := by
  induction l with
  | nil => simp [scanLines] at h
  | cons x rest ih =>
    rw [scanLines] at h
    split at h
    · next t2 hr =>
      cases h
      exact tryLine_length _ _ hr
    · exact ih h

/-- Length bound through the fallback shape scan. -/
theorem scanShapesFallback_length (l : List PShape) (t : String)
    (h : scanShapesFallback l = some t) : 5 < t.length := by
  induction l with
  | nil => simp [scanShapesFallback] at h
  | cons sh rest ih =>
    rw [scanShapesFallback] at h
    split at h
    · exact ih h
    · split at h
      · next t2 hr =>
        cases h
        exact scanLines_length _ _ hr
      · exact ih h

/-- Claim C7, counterexample.  The "Part N:" path of
`extract_title_from_slide_heading` checks only the 6-character minimum,
not the 10-alphabetic-character minimum: on a slide whose single run is
"Part 1: 123 456 789 (140)" the function returns "123 456 789", a title
with zero alphabetic characters. -/
theorem C7_part_path_counterexample :
    extract_title_from_slide_heading ⟨[⟨some [["Part 1: 123 456 789 (140)"]]⟩]⟩
      = "123 456 789" ∧
    countAlpha "123 456 789" < 10 := by
  exact ⟨by decide, by decide⟩

/-- Claim C7, amended.  Every non-empty title the heading extractor
returns has at least 6 characters; the 10-alphabetic-character filter is
applied only on the section-label path (and a 15-letter filter on the
generic fallback path), not on the "Part N:" path. -/
theorem C7_extract_title_min_length (slide : PSlide)
    (h : extract_title_from_slide_heading slide ≠ "") :
    6 ≤ (extract_title_from_slide_heading slide).length := by
  cases h1 : scanShapesHeading slide.shapes with
  | some t =>
    have hb := scanShapesHeading_length _ _ h1
    simp only [extract_title_from_slide_heading, h1]
    omega
  | none =>
    cases h2 : scanShapesFallback slide.shapes with
    | some t =>
      have hb := scanShapesFallback_length _ _ h2
      simp only [extract_title_from_slide_heading, h1, h2]
      omega
    | none =>
      exact absurd (by simp [extract_title_from_slide_heading, h1, h2]) h

/-- Witness for C7: a section-heading slide yields a title of length at
least 6. -/
theorem C7_extract_title_min_length_witness :
    extract_title_from_slide_heading
      ⟨[⟨some [["Offertory - When I survey the wondrous cross"]]⟩]⟩
      = "When I survey the wondrous cross" ∧
    6 ≤ (extract_title_from_slide_heading
      ⟨[⟨some [["Offertory - When I survey the wondrous cross"]]⟩]⟩).length :=
  ⟨by decide, C7_extract_title_min_length _ (by decide)⟩

/-! Candidate selector.  `find_best_song_source` of
`generate_english_hcs_ppt.py` (lines 709–748; the Malayalam variant at
lines 681–744 runs the identical loop, guard and marking step, with an
extra last-resort pass over hymnal-compendium files).  The per-file search
`find_song_slide_indices_in_pptx(pf, hymn_num, song_name)` is a collaborator
reading a presentation file; it is abstracted here as a function from the
file name to its result for the requested hymn number and title hint. -/

/-- Result of `find_song_slide_indices_in_pptx` for one file:
`(title_idx, content_indices, extracted_title)`. -/
structure SearchRes where
  titleIdx : Option Nat
  content : List Nat
  title : String

/-- Key of the `USED_SLIDE_RANGES` dict: the Python code uses the string
`f"{pf}:{min}-{max}"`, injective in `(pf, min, max)` since the two numbers
are decimal digit runs. -/
abbrev SlideKey := String × Nat × Nat

/-- The `USED_SLIDE_RANGES` map, modelled as an association list where the
most recent binding of a key wins (Python dict assignment). -/
abbrev UsedMap := List (SlideKey × String)

/-- Lookup in `USED_SLIDE_RANGES`. -/
def lookupUsed : UsedMap → SlideKey → Option String
  | [], _ => none
  | (k, v) :: rest, key => if k = key then some v else lookupUsed rest key

/-- Python `min` of a non-empty list (0 on the empty list, unreachable at
call sites since they are guarded by non-emptiness). -/
def listMin : List Nat → Nat
  | [] => 0
  | x :: xs => xs.foldl min x

/-- Python `max` of a non-empty list. -/
def listMax : List Nat → Nat
  | [] => 0
  | x :: xs => xs.foldl max x

/-- Slide key `f"{pf}:{min(c_indices)}-{max(c_indices)}"` of a candidate. -/
def slideKeyOf (pf : String) (c : List Nat) : SlideKey := (pf, listMin c, listMax c)

/-- The used-range guard of the selector:
`slide_key not in USED_SLIDE_RANGES or USED_SLIDE_RANGES[slide_key] == hymn_num`. -/
def guardOk (used : UsedMap) (hymn_num : String) (key : SlideKey) : Bool :=
  match lookupUsed used key with
  | none => true
  | some h => h == hymn_num

/-- Accumulator of the selection loop (`best_source`, `best_count`,
`best_title_idx`, `best_content`, `best_extracted_title`). -/
structure Best where
  source : Option String
  count : Nat
  titleIdx : Option Nat
  content : List Nat
  title : String

/-- Initial accumulator (`None, 0, None, [], ""`). -/
def best0 : Best := ⟨none, 0, none, [], ""⟩

/-- The file loop of `find_best_song_source` (lines 730–741): keep a
candidate with strictly more content slides than the current best,
provided its slide range is not already claimed by a different hymn
number. -/
def scanFiles (search : String → SearchRes) (used : UsedMap) (hymn_num : String) :
    List String → Best → Best
  | [], b => b
  | pf :: rest, b =>
    let r := search pf
    let b2 :=
      if r.content ≠ [] ∧ r.content.length > b.count then
        if guardOk used hymn_num (slideKeyOf pf r.content) then
          ⟨some pf, r.content.length, r.titleIdx, r.content, r.title⟩
        else b
      else b
    scanFiles search used hymn_num rest b2

/-- Result of `find_best_song_source` together with the updated
`USED_SLIDE_RANGES` (the Python function mutates a module-level dict; the
embedding threads it explicitly). -/
structure FBResult where
  source : Option String
  titleIdx : Option Nat
  content : List Nat
  title : String
  used : UsedMap

/-- Embedding of `find_best_song_source(hymn_num, song_name)`
(generate_english_hcs_ppt.py lines 709–748).  `search pf` stands for
`find_song_slide_indices_in_pptx(pf, hymn_num, song_name)`.  On success the
selected range is marked as claimed by the requested hymn number. -/
def find_best_song_source (search : String → SearchRes) (files : List String)
    (hymn_num : String) (used : UsedMap) : FBResult :=
  let b := scanFiles search used hymn_num files best0
  match b.source with
  | some f =>
    if b.content ≠ [] then
      ⟨b.source, b.titleIdx, b.content, b.title, (slideKeyOf f b.content, hymn_num) :: used⟩
    else
      ⟨b.source, b.titleIdx, b.content, b.title, used⟩
  | none => ⟨none, b.titleIdx, b.content, b.title, used⟩

/-- Invariant of the selection loop: any selected candidate has non-empty
content and passed the used-range guard. -/
def BestInv (used : UsedMap) (hymn_num : String) (b : Best) : Prop :=
  ∀ f, b.source = some f →
    b.content ≠ [] ∧ guardOk used hymn_num (slideKeyOf f b.content) = true

/-- The loop preserves the guard invariant. -/
theorem scanFiles_inv (search : String → SearchRes) (used : UsedMap)
    (hymn_num : String) (files : List String) (b : Best)
    (hb : BestInv used hymn_num b) :
    BestInv used hymn_num (scanFiles search used hymn_num files b) := by
  induction files generalizing b with
  | nil => exact hb
  | cons pf rest ih =>
    rw [scanFiles]
    apply ih
    dsimp only
    split
    · next hc =>
      split
      · next hg =>
        intro f hf
        cases hf
        exact ⟨hc.1, hg⟩
      · exact hb
    · exact hb

/-- The initial accumulator satisfies the invariant vacuously. -/
theorem best0_inv (used : UsedMap) (hymn_num : String) :
    BestInv used hymn_num best0 := by
  intro f hf
  cases hf

/-- Computation rule for `find_best_song_source` when the loop found a
candidate. -/
theorem find_best_eq_of_some (search : String → SearchRes) (files : List String)
    (hymn_num : String) (used : UsedMap) (g : String)
    (hs : (scanFiles search used hymn_num files best0).source = some g)
    (hc : (scanFiles search used hymn_num files best0).content ≠ []) :
    find_best_song_source search files hymn_num used =
      ⟨some g, (scanFiles search used hymn_num files best0).titleIdx,
       (scanFiles search used hymn_num files best0).content,
       (scanFiles search used hymn_num files best0).title,
       (slideKeyOf g (scanFiles search used hymn_num files best0).content,
         hymn_num) :: used⟩ := by
  unfold find_best_song_source
  dsimp only
  rw [hs]
  dsimp only
  rw [if_pos hc]

/-- Computation rule for `find_best_song_source` when the loop found no
candidate. -/
theorem find_best_eq_of_none (search : String → SearchRes) (files : List String)
    (hymn_num : String) (used : UsedMap)
    (hs : (scanFiles search used hymn_num files best0).source = none) :
    find_best_song_source search files hymn_num used =
      ⟨none, (scanFiles search used hymn_num files best0).titleIdx,
       (scanFiles search used hymn_num files best0).content,
       (scanFiles search used hymn_num files best0).title, used⟩ := by
  unfold find_best_song_source
  dsimp only
  rw [hs]

/-- Any range selected by `find_best_song_source` passed the used-range
guard for the requested hymn number, and its content is non-empty. -/
theorem find_best_guard (search : String → SearchRes) (files : List String)
    (hymn_num : String) (used : UsedMap) (f : String)
    (hf : (find_best_song_source search files hymn_num used).source = some f) :
    (find_best_song_source search files hymn_num used).content ≠ [] ∧
    guardOk used hymn_num
      (slideKeyOf f (find_best_song_source search files hymn_num used).content)
      = true := by
  have hinv := scanFiles_inv search used hymn_num files best0 (best0_inv used hymn_num)
  cases hs : (scanFiles search used hymn_num files best0).source with
  | none =>
    rw [find_best_eq_of_none search files hymn_num used hs] at hf
    cases hf
  | some g =>
    have hg := hinv g hs
    rw [find_best_eq_of_some search files hymn_num used g hs hg.1] at hf ⊢
    have : g = f := by
      have := hf
      simpa using this
    subst this
    exact hg

/-- On success, the updated map is the old one extended with the selected
key bound to the requested hymn number. -/
theorem find_best_used_update (search : String → SearchRes) (files : List String)
    (hymn_num : String) (used : UsedMap) (f : String)
    (hf : (find_best_song_source search files hymn_num used).source = some f) :
    (find_best_song_source search files hymn_num used).used =
      (slideKeyOf f (find_best_song_source search files hymn_num used).content,
        hymn_num) :: used := by
  have hinv := scanFiles_inv search used hymn_num files best0 (best0_inv used hymn_num)
  cases hs : (scanFiles search used hymn_num files best0).source with
  | none =>
    rw [find_best_eq_of_none search files hymn_num used hs] at hf
    cases hf
  | some g =>
    have hg := hinv g hs
    rw [find_best_eq_of_some search files hymn_num used g hs hg.1] at hf ⊢
    have : g = f := by simpa using hf
    subst this
    rfl

/-- One-step unfolding of the selection loop. -/
theorem scanFiles_cons (search : String → SearchRes) (used : UsedMap)
    (hymn_num pf : String) (rest : List String) (b : Best) :
    scanFiles search used hymn_num (pf :: rest) b =
      scanFiles search used hymn_num rest
        (if (search pf).content ≠ [] ∧ (search pf).content.length > b.count then
          if guardOk used hymn_num (slideKeyOf pf (search pf).content) then
            ⟨some pf, (search pf).content.length, (search pf).titleIdx,
             (search pf).content, (search pf).title⟩
          else b
        else b) := by
  rw [scanFiles]

/-- The empty file list leaves the accumulator unchanged. -/
theorem scanFiles_nil (search : String → SearchRes) (used : UsedMap)
    (hymn_num : String) (b : Best) :
    scanFiles search used hymn_num [] b = b := rfl

/-- If the loop selects nothing, the accumulator is still the initial one. -/
theorem scanFiles_none_eq (search : String → SearchRes) (used : UsedMap)
    (hymn_num : String) (files : List String) (b : Best)
    (hb : b.source = none → b = best0)
    (hn : (scanFiles search used hymn_num files b).source = none) :
    scanFiles search used hymn_num files b = best0 := by
  induction files generalizing b with
  | nil => exact hb hn
  | cons pf rest ih =>
    rw [scanFiles_cons] at hn ⊢
    apply ih _ _ hn
    split
    · split
      · intro hsome
        cases hsome
      · exact hb
    · exact hb

/-- Claim C10.  A call of `find_best_song_source` that finds no candidate
returns `(None, None, [], "")` and leaves `USED_SLIDE_RANGES` completely
unchanged; a call that returns a source file binds exactly the selected
`(file, min, max)` key to the requested hymn number and changes no other
key. -/
theorem C10_find_best_used_map (search : String → SearchRes) (files : List String)
    (hymn_num : String) (used : UsedMap) :
    ((find_best_song_source search files hymn_num used).source = none →
      (find_best_song_source search files hymn_num used).titleIdx = none ∧
      (find_best_song_source search files hymn_num used).content = [] ∧
      (find_best_song_source search files hymn_num used).title = "" ∧
      (find_best_song_source search files hymn_num used).used = used) ∧
    (∀ f, (find_best_song_source search files hymn_num used).source = some f →
      lookupUsed (find_best_song_source search files hymn_num used).used
        (slideKeyOf f (find_best_song_source search files hymn_num used).content)
        = some hymn_num ∧
      ∀ k, k ≠ slideKeyOf f (find_best_song_source search files hymn_num used).content →
        lookupUsed (find_best_song_source search files hymn_num used).used k
          = lookupUsed used k) := by
  constructor
  · intro hnone
    have hs : (scanFiles search used hymn_num files best0).source = none := by
      by_contra hne
      cases hs2 : (scanFiles search used hymn_num files best0).source with
      | none => exact hne hs2
      | some g =>
        have hg := scanFiles_inv search used hymn_num files best0
          (best0_inv used hymn_num) g hs2
        rw [find_best_eq_of_some search files hymn_num used g hs2 hg.1] at hnone
        cases hnone
    have he := scanFiles_none_eq search used hymn_num files best0
      (fun _ => rfl) hs
    rw [find_best_eq_of_none search files hymn_num used hs, he]
    exact ⟨rfl, rfl, rfl, rfl⟩
  · intro f hf
    have hupd := find_best_used_update search files hymn_num used f hf
    rw [hupd]
    constructor
    · show lookupUsed ((slideKeyOf f _, hymn_num) :: used) _ = some hymn_num
      rw [lookupUsed]
      rw [if_pos rfl]
    · intro k hk
      show lookupUsed ((slideKeyOf f _, hymn_num) :: used) k = lookupUsed used k
      rw [lookupUsed]
      rw [if_neg (fun h => hk h.symm)]

/-- Witness for C10, both conjuncts at concrete inputs: an empty library
leaves the map unchanged, and a one-file library binds exactly the
selected key. -/
theorem C10_find_best_used_map_witness :
    ((find_best_song_source (fun _ => ⟨some 1, [2, 3], "x"⟩) [] "7" []).used = []) ∧
    lookupUsed
      ((find_best_song_source (fun _ => ⟨some 1, [2, 3], "x"⟩) ["A"] "7" []).used)
      ("A", 2, 3) = some "7" ∧
    lookupUsed
      ((find_best_song_source (fun _ => ⟨some 1, [2, 3], "x"⟩) ["A"] "7" []).used)
      ("B", 2, 3) = lookupUsed [] ("B", 2, 3) := by
  refine ⟨((C10_find_best_used_map (fun _ => ⟨some 1, [2, 3], "x"⟩) [] "7" []).1
      (by decide)).2.2.2, ?_, ?_⟩
  · have h := ((C10_find_best_used_map (fun _ => ⟨some 1, [2, 3], "x"⟩) ["A"] "7" []).2
      "A" (by decide)).1
    simpa using h
  · have h := ((C10_find_best_used_map (fun _ => ⟨some 1, [2, 3], "x"⟩) ["A"] "7" []).2
      "A" (by decide)).2 ("B", 2, 3) (by decide)
    simpa using h

/-- Claim C2.  If two files both yield matching runs with non-empty,
unclaimed (or same-hymn-claimed) ranges, the file with the strictly larger
content-slide count is selected, regardless of the scan order of the two
files. -/
theorem C2_find_best_largest_wins (search : String → SearchRes) (used : UsedMap)
    (hymn_num a b : String)
    (hna : (search a).content ≠ [])
    (hnb : (search b).content ≠ [])
    (hlt : (search a).content.length < (search b).content.length)
    (hga : guardOk used hymn_num (slideKeyOf a (search a).content) = true)
    (hgb : guardOk used hymn_num (slideKeyOf b (search b).content) = true) :
    (find_best_song_source search [a, b] hymn_num used).source = some b ∧
    (find_best_song_source search [b, a] hymn_num used).source = some b := by
  have hca : (search a).content.length > 0 := List.length_pos.mpr hna
  have hcb : (search b).content.length > 0 := List.length_pos.mpr hnb
  have eab : scanFiles search used hymn_num [a, b] best0 =
      ⟨some b, (search b).content.length, (search b).titleIdx,
       (search b).content, (search b).title⟩ := by
    rw [scanFiles_cons]
    rw [if_pos ⟨hna, hca⟩, if_pos hga]
    rw [scanFiles_cons]
    rw [if_pos ⟨hnb, hlt⟩, if_pos hgb]
    rw [scanFiles_nil]
  have eba : scanFiles search used hymn_num [b, a] best0 =
      ⟨some b, (search b).content.length, (search b).titleIdx,
       (search b).content, (search b).title⟩ := by
    rw [scanFiles_cons]
    rw [if_pos ⟨hnb, hcb⟩, if_pos hgb]
    rw [scanFiles_cons]
    rw [if_neg (fun h => absurd h.2 (by
      show ¬((search a).content.length > (search b).content.length)
      omega))]
    rw [scanFiles_nil]
  constructor
  · have h1 : (scanFiles search used hymn_num [a, b] best0).source = some b := by
      rw [eab]
    have h2 : (scanFiles search used hymn_num [a, b] best0).content ≠ [] := by
      rw [eab]; exact hnb
    rw [find_best_eq_of_some search [a, b] hymn_num used b h1 h2]
  · have h1 : (scanFiles search used hymn_num [b, a] best0).source = some b := by
      rw [eba]
    have h2 : (scanFiles search used hymn_num [b, a] best0).content ≠ [] := by
      rw [eba]; exact hnb
    rw [find_best_eq_of_some search [b, a] hymn_num used b h1 h2]

/-- Witness for C2: a file yielding 6 content slides for hymn 42 beats one
yielding 3, in either scan order. -/
theorem C2_find_best_largest_wins_witness :
    (find_best_song_source
      (fun pf => if pf = "A" then ⟨some 1, [2, 3, 4], "a"⟩
                 else ⟨some 1, [10, 11, 12, 13, 14, 15], "b"⟩)
      ["A", "B"] "42" []).source = some "B" ∧
    (find_best_song_source
      (fun pf => if pf = "A" then ⟨some 1, [2, 3, 4], "a"⟩
                 else ⟨some 1, [10, 11, 12, 13, 14, 15], "b"⟩)
      ["B", "A"] "42" []).source = some "B" :=
  C2_find_best_largest_wins
    (fun pf => if pf = "A" then ⟨some 1, [2, 3, 4], "a"⟩
               else ⟨some 1, [10, 11, 12, 13, 14, 15], "b"⟩)
    [] "42" "A" "B" (by decide) (by decide) (by decide) (by decide) (by decide)

/-- Claim C1.  Within one generation, once `find_best_song_source` has
selected a physical slide range for hymn number `n`, (a) a later call with
the same hymn number `n` whose search yields a candidate with that same
range is allowed to select it again, and (b) a later call with any
different hymn number `m ≠ n` can never select a candidate occupying that
same range — the used-range guard rejects it. -/
theorem C1_used_range_reuse_and_guard (search1 : String → SearchRes)
    (files1 : List String) (n : String) (used0 : UsedMap) (f : String)
    (hf : (find_best_song_source search1 files1 n used0).source = some f) :
    (∀ r : SearchRes, r.content ≠ [] →
       slideKeyOf f r.content
         = slideKeyOf f (find_best_song_source search1 files1 n used0).content →
       (find_best_song_source (fun _ => r) [f] n
         (find_best_song_source search1 files1 n used0).used).source = some f) ∧
    (∀ m, m ≠ n → ∀ (search2 : String → SearchRes) (files2 : List String) (g : String),
       (find_best_song_source search2 files2 m
           (find_best_song_source search1 files1 n used0).used).source = some g →
       slideKeyOf g (find_best_song_source search2 files2 m
           (find_best_song_source search1 files1 n used0).used).content
         ≠ slideKeyOf f (find_best_song_source search1 files1 n used0).content) := by
  have hupd := find_best_used_update search1 files1 n used0 f hf
  constructor
  · intro r hr hkey
    have hg : guardOk (find_best_song_source search1 files1 n used0).used n
        (slideKeyOf f r.content) = true := by
      rw [hkey, guardOk, hupd, lookupUsed, if_pos rfl]
      simp
    have e1 : scanFiles (fun _ => r)
        (find_best_song_source search1 files1 n used0).used n [f] best0 =
        ⟨some f, r.content.length, r.titleIdx, r.content, r.title⟩ := by
      rw [scanFiles_cons]
      rw [if_pos ⟨hr, List.length_pos.mpr hr⟩, if_pos hg]
      rw [scanFiles_nil]
    have h1 : (scanFiles (fun _ => r)
        (find_best_song_source search1 files1 n used0).used n [f] best0).source
        = some f := by rw [e1]
    have h2 : (scanFiles (fun _ => r)
        (find_best_song_source search1 files1 n used0).used n [f] best0).content
        ≠ [] := by rw [e1]; exact hr
    rw [find_best_eq_of_some _ [f] n _ f h1 h2]
  · intro m hm search2 files2 g hg hkeq
    have hguard := (find_best_guard search2 files2 m
      (find_best_song_source search1 files1 n used0).used g hg).2
    have hlk : lookupUsed (find_best_song_source search1 files1 n used0).used
        (slideKeyOf f (find_best_song_source search1 files1 n used0).content)
        = some n := by
      rw [hupd, lookupUsed, if_pos rfl]
    rw [hkeq, guardOk, hlk] at hguard
    have hnm : n = m := by simpa using hguard
    exact hm hnm.symm

/-- Witness for C1: after hymn "42" claims range ("A", 2, 3), a second
call for hymn "42" whose only candidate occupies the same range selects it
again. -/
theorem C1_used_range_reuse_and_guard_witness :
    (find_best_song_source (fun _ => (⟨some 1, [2, 3], "t"⟩ : SearchRes)) ["A"] "42"
      (find_best_song_source (fun _ => (⟨some 1, [2, 3], "t"⟩ : SearchRes))
        ["A"] "42" []).used).source = some "A" :=
  (C1_used_range_reuse_and_guard (fun _ => ⟨some 1, [2, 3], "t"⟩) ["A"] "42" [] "A"
      (by decide)).1 ⟨some 1, [2, 3], "t"⟩ (by decide) (by decide)

/-! Run segmenter.  The per-slide loop of `analyze_pptx_file`
(extract_english_hymns.py lines 431–599), followed by the title backfill
post-pass (601–615), the title cleanup (617–641) and deduplication
(643–701).  The Text Signal Extractors consulted per slide
(`extract_hymn_number_from_slide`, `is_section_title_slide`,
`extract_title_from_content`, the metadata/non-hymn pattern tests, the
section-keyword prefix test and the bracketed-number scan) are collaborator
calls whose values for one slide are collected in a `SlideSig` record; the
loop's control flow is embedded exactly and quantified over all signal
values. -/

/-- Signals the loop reads from one slide, in evaluation order. -/
structure SlideSig where
  tooShort : Bool
  isMetadata : Bool
  hymnNum : Option String
  isNonHymn : Bool
  contTitle : String
  newTitle : String
  sectionTitle : Option (String × String)
  hasSectionKeyword : Bool
  bracketNum : Option String
deriving DecidableEq

/-- The `current_hymn` dictionary of the loop. -/
structure RunState where
  hymn_number : String
  title : String
  title_slide : Nat
  content_slides : List Nat
  total_slides : Nat
  slides_to_check_for_title : List Nat
  needs_hymn_number : Bool
deriving DecidableEq

/-- Close the open run: emit it when it has at least one content slide
(the guard `len(current_hymn['content_slides']) > 0` at every emission
site). -/
def closeRun (st : Option RunState) (acc : List RunState) : List RunState :=
  match st with
  | some h => if h.content_slides ≠ [] then acc ++ [h] else acc
  | none => acc

/-- New numbered run (lines 528–536): the first slide is recorded as a
content slide only when a title was found on it. -/
def newNumberRun (n : String) (sig : SlideSig) (idx : Nat) : RunState :=
  ⟨n, sig.newTitle, idx,
   if sig.newTitle ≠ "" ∨ sig.contTitle ≠ "" then [idx] else [], 1, [], false⟩

/-- Continuation step for a collecting run without a hymn number on the
slide (lines 575–595): append the slide, resolve a pending hymn number
from a bracketed number, and record the slide as a title candidate when
the title is still missing. -/
def contStep (h : RunState) (sig : SlideSig) (idx : Nat) : RunState :=
  let h1 := { h with content_slides := h.content_slides ++ [idx],
                     total_slides := h.total_slides + 1 }
  let h2 :=
    if h1.needs_hymn_number ∧ h1.hymn_number = "" then
      match sig.bracketNum with
      | some b => { h1 with hymn_number := b, needs_hymn_number := false }
      | none => h1
    else h1
  if h2.title = "" then
    { h2 with slides_to_check_for_title := h2.slides_to_check_for_title ++ [idx - 1] }
  else h2

/-- Transition of the three skip branches of `analyze_pptx_file`
(near-empty slide, lines 439–443; metadata slide, 453–457; non-hymn
slide, 487–491): the open run is emitted and reset only when it already
has a content slide — `current_hymn = None` sits inside the
`len(current_hymn['content_slides']) > 0` guard, so a zero-content open
run (e.g. a number-only cover slide) survives the skip slide and keeps
collecting. -/
def skipSlideStep (st : Option RunState) (acc : List RunState) :
    Option RunState × List RunState :=
  match st with
  | some h => if h.content_slides ≠ [] then (none, acc ++ [h]) else (some h, acc)
  | none => (none, acc)

/-- One slide's transition of the loop of `analyze_pptx_file` (lines
431–595): returns the new open-run state and the emitted-run list.  Note
the asymmetry of the source: the skip branches reset the open run only
when they emit it (`skipSlideStep`), while the section-keyword branch
(lines 570–574) resets it unconditionally. -/
def segStep (sig : SlideSig) (idx : Nat) (st : Option RunState)
    (acc : List RunState) : Option RunState × List RunState :=
  if sig.tooShort then skipSlideStep st acc
  else if sig.isMetadata then skipSlideStep st acc
  else
    match sig.hymnNum with
    | some n =>
      match st with
      | some h =>
        if h.hymn_number = n then
          (some { h with
            content_slides := h.content_slides ++ [idx],
            total_slides := h.total_slides + 1,
            title := if h.title = "" ∧ sig.contTitle ≠ "" then sig.contTitle
                     else h.title }, acc)
        else (some (newNumberRun n sig idx), closeRun (some h) acc)
      | none => (some (newNumberRun n sig idx), closeRun none acc)
    | none =>
      if sig.isNonHymn then skipSlideStep st acc
      else
        match sig.sectionTitle with
        | some sec => (some ⟨"", sec.2, idx, [idx], 1, [], true⟩, closeRun st acc)
        | none =>
          match st with
          | some h =>
            if sig.hasSectionKeyword then (none, closeRun (some h) acc)
            else (some (contStep h sig idx), acc)
          | none => (none, acc)

/-- Per-slide loop of `analyze_pptx_file` (lines 431–599), with `idx` the
1-based slide index; the still-open run is closed at end of file. -/
def segLoop : List SlideSig → Nat → Option RunState → List RunState → List RunState
  | [], _, st, acc => closeRun st acc
  | sig :: rest, idx, st, acc =>
    segLoop rest (idx + 1) (segStep sig idx st acc).1 (segStep sig idx st acc).2

/-- First non-empty string of a list (the backfill pass takes the first
slide whose heading yields a title). -/
def firstNonEmptyStr : List String → String
  | [] => ""
  | t :: rest => if t ≠ "" then t else firstNonEmptyStr rest

/-- Title backfill post-pass (lines 601–615): `headingTitle i` stands for
`extract_title_from_slide_heading` applied to slide `i` of the reopened
file ("" when the slide is out of range or the file cannot be reopened). -/
def backfillTitle (headingTitle : Nat → String) (h : RunState) : RunState :=
  if h.title = "" ∧ h.slides_to_check_for_title ≠ [] then
    { h with title := firstNonEmptyStr (h.slides_to_check_for_title.map headingTitle) }
  else h

/-- Pattern `(?:song|hymn)\.?\s*no\.?[\:\-]\s*\d+[,\s]*(.+)` of the title
cleanup (lines 625–630). -/
def realTitleRe : Re :=
  rseq [Re.alt (rlitCI "song") (rlitCI "hymn"), Re.opt (rch '.'), rws0, rlitCI "no",
        Re.opt (rch '.'), rcls [':', '-'], rws0, rplus isDigitB,
        Re.starP (fun c => c == ',' || isWsB c), grpDotPlusG]

/-- Pattern `\s*\(v\d+\)\s*` (version marker removal, line 633). -/
def vMarkerRe : Re :=
  rseq [rws0, rch '(', rch 'v', rplus isDigitB, rch ')', rws0]

/-- Title cleanup pass of `analyze_pptx_file` (lines 617–641). -/
def cleanupRunTitle (h : RunState) : RunState :=
  let title := pyStrip h.title
  if title ≠ "" then
    if titleIndicator title then
      match reGroup1 realTitleRe title.data with
      | some g =>
        let rt := gsub vMarkerRe "" (pyStrip (String.mk g))
        if rt ≠ "" ∧ rt.length > 3 then { h with title := rt }
        else { h with title := "" }
      | none => { h with title := "" }
    else h
  else h

/-- Embedding of the run list produced by `analyze_pptx_file` for one file
(lines 416–703): segmentation, title backfill, title cleanup,
deduplication. -/
def analyze_pptx_runs (sigs : List SlideSig) (headingTitle : Nat → String) :
    List RunState :=
  let hymns := segLoop sigs 1 none []
  let hymns2 := hymns.map (backfillTitle headingTitle)
  let hymns3 := hymns2.map cleanupRunTitle
  deduplicate_hymns (fun h => h.hymn_number) (fun h => h.title) hymns3

/-- Emitted-run property claimed by C8. -/
def RunOk (h : RunState) : Prop :=
  h.content_slides ≠ [] ∧ List.Chain' (· < ·) h.content_slides

/-- Invariant on the open run: its content slides form an increasing chain
of indices below the next slide index. -/
def CurOk (idx : Nat) (st : Option RunState) : Prop :=
  ∀ h, st = some h →
    List.Chain' (· < ·) h.content_slides ∧ ∀ x ∈ h.content_slides, x < idx

/-- Appending a strictly larger element preserves an increasing chain. -/
theorem chain_lt_append_singleton (l : List Nat) (n : Nat)
    (hc : List.Chain' (· < ·) l) (hb : ∀ x ∈ l, x < n) :
    List.Chain' (· < ·) (l ++ [n]) := by
  rw [List.chain'_append]
  refine ⟨hc, List.chain'_singleton n, ?_⟩
  intro x hx y hy
  have hxl : x ∈ l := by
    obtain ⟨hne, hx2⟩ := List.mem_getLast?_eq_getLast hx
    rw [hx2]
    exact List.getLast_mem hne
  have hyn : n = y := by simpa using hy
  rw [← hyn]
  exact hb x hxl

/-- Closing preserves the emitted-run property. -/
theorem closeRun_ok (idx : Nat) (st : Option RunState) (acc : List RunState)
    (hacc : ∀ g ∈ acc, RunOk g) (hcur : CurOk idx st) :
    ∀ g ∈ closeRun st acc, RunOk g := by
  intro g hg
  cases st with
  | none => exact hacc g hg
  | some h =>
    rw [closeRun] at hg
    split at hg
    · next hne =>
      rcases List.mem_append.mp hg with hm | hm
      · exact hacc g hm
      · have : g = h := by simpa using hm
        subst this
        exact ⟨hne, (hcur g rfl).1⟩
    · exact hacc g hg

/-- The skip-branch transition preserves both invariants: it emits only a
non-empty open run, and a surviving zero-content run keeps its (bounded,
increasing) content list. -/
theorem skipSlideStep_ok (idx : Nat) (st : Option RunState)
    (acc : List RunState) (hacc : ∀ g ∈ acc, RunOk g) (hcur : CurOk idx st) :
    (∀ g ∈ (skipSlideStep st acc).2, RunOk g) ∧
    CurOk (idx + 1) (skipSlideStep st acc).1 := by
  cases st with
  | none =>
    exact ⟨hacc, by intro h hh; cases hh⟩
  | some h =>
    unfold skipSlideStep
    dsimp only
    split
    · next hne =>
      constructor
      · intro g hg
        rcases List.mem_append.mp hg with hm | hm
        · exact hacc g hm
        · have : g = h := by simpa using hm
          subst this
          exact ⟨hne, (hcur g rfl).1⟩
      · intro h2 hh2
        cases hh2
    · constructor
      · exact hacc
      · intro h2 hh2
        cases hh2
        have hold := hcur h rfl
        exact ⟨hold.1, fun x hx => Nat.lt_succ_of_lt (hold.2 x hx)⟩

/-- One transition preserves both invariants: emitted runs are sound and
the open run keeps an increasing, bounded content list. -/
theorem segStep_ok (sig : SlideSig) (idx : Nat) (st : Option RunState)
    (acc : List RunState) (hacc : ∀ g ∈ acc, RunOk g) (hcur : CurOk idx st) :
    (∀ g ∈ (segStep sig idx st acc).2, RunOk g) ∧
    CurOk (idx + 1) (segStep sig idx st acc).1 := by
  have hclose := closeRun_ok idx st acc hacc hcur
  have hnone : CurOk (idx + 1) none := by intro h hh; cases hh
  have hnewNum : ∀ n, CurOk (idx + 1) (some (newNumberRun n sig idx)) := by
    intro n h2 hh2
    cases hh2
    unfold newNumberRun
    dsimp only
    constructor
    · split
      · exact List.chain'_singleton idx
      · exact List.chain'_nil
    · intro x hx
      split at hx
      · have : x = idx := by simpa using hx
        omega
      · cases hx
  unfold segStep
  split
  · exact skipSlideStep_ok idx st acc hacc hcur
  · split
    · exact skipSlideStep_ok idx st acc hacc hcur
    · split
      · next n hn =>
        cases st with
        | some h =>
          dsimp only
          split
          · refine ⟨hacc, ?_⟩
            intro h2 hh2
            cases hh2
            have hold := hcur h rfl
            dsimp only
            constructor
            · exact chain_lt_append_singleton _ _ hold.1 hold.2
            · intro x hx
              rcases List.mem_append.mp hx with hm | hm
              · exact Nat.lt_succ_of_lt (hold.2 x hm)
              · have : x = idx := by simpa using hm
                omega
          · exact ⟨closeRun_ok idx (some h) acc hacc hcur, hnewNum n⟩
        | none =>
          dsimp only
          exact ⟨closeRun_ok idx none acc hacc hcur, hnewNum n⟩
      · split
        · exact skipSlideStep_ok idx st acc hacc hcur
        · split
          · next sec =>
            refine ⟨hclose, ?_⟩
            intro h2 hh2
            cases hh2
            refine ⟨List.chain'_singleton idx, ?_⟩
            intro x hx
            have : x = idx := by simpa using hx
            omega
          · cases st with
            | some h =>
              dsimp only
              split
              · exact ⟨closeRun_ok idx (some h) acc hacc hcur, hnone⟩
              · refine ⟨hacc, ?_⟩
                intro h2 hh2
                cases hh2
                have hold := hcur h rfl
                have hcont : (contStep h sig idx).content_slides
                    = h.content_slides ++ [idx] := by
                  unfold contStep
                  dsimp only
                  repeat' split
                  all_goals rfl
                rw [hcont]
                constructor
                · exact chain_lt_append_singleton _ _ hold.1 hold.2
                · intro x hx
                  rcases List.mem_append.mp hx with hm | hm
                  · exact Nat.lt_succ_of_lt (hold.2 x hm)
                  · have : x = idx := by simpa using hm
                    omega
            | none =>
              dsimp only
              exact ⟨hacc, hnone⟩

/-- The segmentation loop only emits runs with non-empty, strictly
increasing content-slide lists. -/
theorem segLoop_ok (sigs : List SlideSig) (idx : Nat) (st : Option RunState)
    (acc : List RunState) (hacc : ∀ g ∈ acc, RunOk g) (hcur : CurOk idx st) :
    ∀ g ∈ segLoop sigs idx st acc, RunOk g := by
  induction sigs generalizing idx st acc with
  | nil => exact closeRun_ok idx st acc hacc hcur
  | cons sig rest ih =>
    have hs := segStep_ok sig idx st acc hacc hcur
    exact ih (idx + 1) _ _ hs.1 hs.2

/-- The backfill pass does not touch content slides. -/
theorem backfillTitle_content (headingTitle : Nat → String) (h : RunState) :
    (backfillTitle headingTitle h).content_slides = h.content_slides := by
  unfold backfillTitle
  split <;> rfl

/-- The title cleanup pass does not touch content slides. -/
theorem cleanupRunTitle_content (h : RunState) :
    (cleanupRunTitle h).content_slides = h.content_slides := by
  unfold cleanupRunTitle
  dsimp only
  repeat' split
  all_goals rfl

/-- Deduplication only removes runs, never invents one. -/
theorem dedupGo_subset {α : Type} (num title : α → String) (l : List α) :
    ∀ (sk sn : List String) (x : α), x ∈ dedupGo num title l sk sn → x ∈ l := by
  induction l with
  | nil =>
    intro sk sn x hx
    simp [dedupGo] at hx
  | cons h rest ih =>
    intro sk sn x hx
    rw [dedupGo] at hx
    try dsimp only at hx
    repeat' split at hx
    all_goals
      first
        | exact List.mem_cons_of_mem h (ih _ _ _ hx)
        | exact (List.mem_cons.mp hx).elim
            (fun he => by rw [he]; exact List.mem_cons_self h rest)
            (fun hm => List.mem_cons_of_mem h (ih _ _ _ hm))

/-- Claim C8.  Every run returned by `analyze_pptx_file` has a non-empty
`content_slides` list with strictly increasing slide indices; a run closed
with zero content slides is discarded and never appears — for any values
of the per-slide text signals and of the backfill collaborator. -/
theorem C8_analyze_runs_invariant (sigs : List SlideSig)
    (headingTitle : Nat → String) :
    ∀ h ∈ analyze_pptx_runs sigs headingTitle,
      h.content_slides ≠ [] ∧ List.Chain' (· < ·) h.content_slides := by
  intro h hmem
  unfold analyze_pptx_runs at hmem
  try dsimp only at hmem
  have h3 := dedupGo_subset (fun h : RunState => h.hymn_number)
    (fun h : RunState => h.title) _ _ _ _ hmem
  obtain ⟨h2, hh2, he2⟩ := List.mem_map.mp h3
  obtain ⟨h1, hh1, he1⟩ := List.mem_map.mp hh2
  have hp := segLoop_ok sigs 1 none [] (by intro g hg; cases hg)
    (by intro g hg; cases hg) h1 hh1
  rw [← he2, ← he1, cleanupRunTitle_content, backfillTitle_content]
  exact hp

/-- Witness for C8, at two concrete inputs: a one-slide file carrying
hymn number 42 and a title yields one run with content [1]; and a file of
[number-only cover slide without a title, near-empty slide, lyric slide]
yields one run with content [3] — the zero-content open run survives the
skip slide (it is emitted or reset only once it has a content slide) and
the cover slide itself is never recorded as content. -/
theorem C8_analyze_runs_invariant_witness :
    (analyze_pptx_runs
      [⟨false, false, some "42", false, "Amazing grace how sweet the sound",
        "Amazing grace how sweet the sound", none, false, none⟩]
      (fun _ => "")
      = [⟨"42", "Amazing grace how sweet the sound", 1, [1], 1, [], false⟩] ∧
     (⟨"42", "Amazing grace how sweet the sound", 1, [1], 1, [], false⟩ :
        RunState).content_slides ≠ [] ∧
     List.Chain' (· < ·)
      (⟨"42", "Amazing grace how sweet the sound", 1, [1], 1, [], false⟩ :
        RunState).content_slides) ∧
    (analyze_pptx_runs
      [⟨false, false, some "42", false, "", "", none, false, none⟩,
       ⟨true, false, none, false, "", "", none, false, none⟩,
       ⟨false, false, none, false, "", "", none, false, none⟩]
      (fun _ => "")
      = [⟨"42", "", 1, [3], 2, [2], false⟩] ∧
     (⟨"42", "", 1, [3], 2, [2], false⟩ : RunState).content_slides ≠ [] ∧
     List.Chain' (· < ·)
      (⟨"42", "", 1, [3], 2, [2], false⟩ : RunState).content_slides) := by
  constructor
  · refine ⟨by decide, ?_, ?_⟩
    · exact (C8_analyze_runs_invariant
        [⟨false, false, some "42", false, "Amazing grace how sweet the sound",
          "Amazing grace how sweet the sound", none, false, none⟩]
        (fun _ => "") _ (by decide)).1
    · exact (C8_analyze_runs_invariant
        [⟨false, false, some "42", false, "Amazing grace how sweet the sound",
          "Amazing grace how sweet the sound", none, false, none⟩]
        (fun _ => "") _ (by decide)).2
  · refine ⟨by decide, ?_, ?_⟩
    · exact (C8_analyze_runs_invariant
        [⟨false, false, some "42", false, "", "", none, false, none⟩,
         ⟨true, false, none, false, "", "", none, false, none⟩,
         ⟨false, false, none, false, "", "", none, false, none⟩]
        (fun _ => "") _ (by decide)).1
    · exact (C8_analyze_runs_invariant
        [⟨false, false, some "42", false, "", "", none, false, none⟩,
         ⟨true, false, none, false, "", "", none, false, none⟩,
         ⟨false, false, none, false, "", "", none, false, none⟩]
        (fun _ => "") _ (by decide)).2

/-! Assembly driver.  `generate_presentation` of
`generate_english_hcs_ppt.py` (lines 1919–2110) with its per-section
processors (lines 1344–1550).  A generated slide is modelled by the list of
text runs the processors write on it; images, geometry and fonts are
visual-only.  The final `update_summary_slide_from_slides` pass (lines
1712–1899) rewrites only the summary textbox from section labels, hymn
numbers and first lyric lines of the generated deck and is not modelled;
the per-section slides the claims concern are unaffected by it. -/

/-- One line of the service plan (`song_list` entry): `hymn_num` is already
string-normalized (`str(song_info["hymn_num"]) if song_info["hymn_num"]
else ""`, line 2043). -/
structure SongReq where
  hymn_num : String
  label : String
  title_hint : String
deriving DecidableEq

/-- Text runs of a title slide produced by `add_title_slide` (lines
868–1010): header, dated footer, section label (with the ThanksGiving
special case) and the second line, which shows `Hymn No <n>` whenever a
hymn number is present and falls back to the passed song name only
otherwise. -/
def add_title_slide_texts (song_label hymn_num song_name date : String) :
    List String :=
  ["Mar Thoma Syrian Church, Singapore",
   "English Holy Communion Service – " ++ date,
   if song_label = "ThanksGiving" then "ThanksGiving Prayers" else song_label,
   if hymn_num ≠ "" then "Hymn No " ++ hymn_num
   else if song_name ≠ "" then song_name else ""]

/-- Text runs of the Message title slide (`add_message_slide`,
lines 1013–1083). -/
def message_slide_texts (date : String) : List String :=
  ["Mar Thoma Syrian Church, Singapore",
   "English Holy Communion Service – " ++ date, "Message"]

/-- Title-bar text written on every cloned content slide
(`update_title_bar_text`, lines 1307–1313). -/
def title_bar_text (label hymn_num song_name : String) : String :=
  if hymn_num ≠ "" then label ++ ": Hymn No " ++ hymn_num
  else if song_name ≠ "" then label ++ ": " ++ song_name
  else label

/-- Title-bar text of the Holy Communion intro slide
(`add_holy_communion_intro_slide`, lines 1101–1107). -/
def hc_intro_texts (hymn_num song_name : String) : List String :=
  [if hymn_num ≠ "" then "Holy Communion - Hymn No " ++ hymn_num
   else if song_name ≠ "" then "Holy Communion - " ++ song_name
   else "Holy Communion"]

/-- Cloned content slides (`clone_slides_from_source`, lines 1122–1177):
one slide per source index, relabelled with the section title bar. -/
def clone_slides_texts (label hymn_num song_name : String) (indices : List Nat) :
    List (List String) :=
  indices.map (fun _ => [title_bar_text label hymn_num song_name])

/-- Shared shape of `process_opening_song`, `process_thanksgiving_prayers`,
`process_confession`, `process_closing_hymn` and `process_generic_song`
(lines 1344–1389, 1457–1477, 1509–1550): resolve, then either emit a title
slide plus cloned content, or a title slide whose song name falls back to
"(Song not found)". -/
def process_labeled_song (search : String → SearchRes) (files : List String)
    (label hymn_num song_name date : String) (used : UsedMap) :
    List (List String) × UsedMap :=
  let R := find_best_song_source search files hymn_num used
  match R.source with
  | some _ =>
    if R.content ≠ [] then
      let display := if R.title ≠ "" then R.title else song_name
      (add_title_slide_texts label hymn_num display date ::
        clone_slides_texts label hymn_num display R.content, R.used)
    else
      (add_title_slide_texts label hymn_num
        (if song_name ≠ "" then song_name else "(Song not found)") date :: [], R.used)
  | none =>
    (add_title_slide_texts label hymn_num
      (if song_name ≠ "" then song_name else "(Song not found)") date :: [], R.used)

/-- Offertory processor (lines 1392–1447): the not-found path additionally
emits a QR content slide whose title bar carries the hymn number. -/
def process_offertory_model (search : String → SearchRes) (files : List String)
    (hymn_num song_name date : String) (used : UsedMap) :
    List (List String) × UsedMap :=
  let R := find_best_song_source search files hymn_num used
  match R.source with
  | some _ =>
    if R.content ≠ [] then
      let display := if R.title ≠ "" then R.title else song_name
      (add_title_slide_texts "Offertory" hymn_num display date ::
        clone_slides_texts "Offertory" hymn_num display R.content, R.used)
    else
      (add_title_slide_texts "Offertory" hymn_num
        (if song_name ≠ "" then song_name else "(Song not found)") date ::
       [if hymn_num ≠ "" then "Offertory: Hymn No " ++ hymn_num else "Offertory"] ::
       [], R.used)
  | none =>
    (add_title_slide_texts "Offertory" hymn_num
      (if song_name ≠ "" then song_name else "(Song not found)") date ::
     [if hymn_num ≠ "" then "Offertory: Hymn No " ++ hymn_num else "Offertory"] ::
     [], R.used)

/-- Holy Communion processor (lines 1480–1506): an intro slide with the
communion title bar instead of a title slide. -/
def process_communion_model (search : String → SearchRes) (files : List String)
    (hymn_num song_name : String) (used : UsedMap) :
    List (List String) × UsedMap :=
  let R := find_best_song_source search files hymn_num used
  match R.source with
  | some _ =>
    if R.content ≠ [] then
      let display := if R.title ≠ "" then R.title else song_name
      (hc_intro_texts hymn_num display ::
        clone_slides_texts "Communion" hymn_num display R.content, R.used)
    else
      (hc_intro_texts hymn_num
        (if song_name ≠ "" then song_name else "(Song not found)") :: [], R.used)
  | none =>
    (hc_intro_texts hymn_num
      (if song_name ≠ "" then song_name else "(Song not found)") :: [], R.used)

/-- Label routing of `generate_presentation` (lines 2049–2086). -/
def processReq (search : String → String → String → SearchRes)
    (files : List String) (date : String) (used : UsedMap) (r : SongReq) :
    List (List String) × UsedMap :=
  let l := pyLower r.label
  let s1 : String → SearchRes := fun pf => search pf r.hymn_num r.title_hint
  if l = "opening" then
    process_labeled_song s1 files "Opening" r.hymn_num r.title_hint date used
  else if l = "thanksgiving" ∨ l = "thanksgiving prayers" ∨ l = "b/a" then
    process_labeled_song s1 files "ThanksGiving" r.hymn_num r.title_hint date used
  else if l = "offertory" then
    process_offertory_model s1 files r.hymn_num r.title_hint date used
  else if l = "message" then ([message_slide_texts date], used)
  else if l = "confession" then
    process_labeled_song s1 files "Confession" r.hymn_num r.title_hint date used
  else if l = "communion" ∨ l = "holy communion" then
    process_communion_model s1 files r.hymn_num r.title_hint used
  else if l = "closing" then
    process_labeled_song s1 files "Closing" r.hymn_num r.title_hint date used
  else if l = "dedication" then
    process_labeled_song s1 files "Dedication" r.hymn_num r.title_hint date used
  else
    process_labeled_song s1 files r.label r.hymn_num r.title_hint date used

/-- The plan loop of `generate_presentation`, threading
`USED_SLIDE_RANGES` through the processors. -/
def genGo (search : String → String → String → SearchRes) (files : List String)
    (date : String) : UsedMap → List SongReq → List (List String)
  | _, [] => []
  | used, r :: rest =>
    (processReq search files date used r).1 ++
      genGo search files date (processReq search files date used r).2 rest

/-- First line of a title hint as shown on the summary slide
(lines 1689–1693). -/
def firstLine50 (t : String) : String :=
  let t1 := String.mk
    (((t.data.map (fun c => if c = Char.ofNat 0x0B then ' ' else c)).filter
      (fun c => !(c == Char.ofNat 0))))
  let fl := pyStrip ((t1.splitOn "\n").headD "")
  if fl.length > 50 then String.mk (fl.data.take 47) ++ "..." else fl

/-- Text runs of the summary body (`create_summary_slide`,
lines 1641–1707): a label line per section (suppressed for a communion
continuation, ThanksGiving shown as "B/A"), then hymn number and hint. -/
def summaryGo : List SongReq → String → List String
  | [], _ => []
  | s :: rest, last_label =>
    let ll := pyLower s.label
    let isCom := ll = "communion" ∨ ll = "holy communion"
    let isTh := ll = "thanksgiving" ∨ ll = "thanksgiving prayers" ∨ ll = "b/a"
    (if isCom ∧ last_label = "communion" then []
     else [if isTh then "B/A" else s.label]) ++
    (if s.hymn_num ≠ "" ∨ s.title_hint ≠ "" then
      (if s.hymn_num ≠ "" then [s.hymn_num] else []) ++
      (if s.title_hint ≠ "" then
        (if s.hymn_num ≠ "" then [" "] else []) ++ [firstLine50 s.title_hint]
       else [])
     else []) ++
    summaryGo rest (if isCom then "communion" else ll)

/-- Texts of the summary slide. -/
def create_summary_slide_texts (plan : List SongReq) : List String :=
  "Song list" :: summaryGo plan ""

/-- Embedding of `generate_presentation(song_list, ...)`: the summary
slide followed by the slides of each request in plan order, starting from
an empty `USED_SLIDE_RANGES` (lines 1929–1931).  The embedding is a total
function: no exception is raised for an unresolved hymn (the only raise in
the source is the missing-template check, line 1971, independent of the
plan). -/
def generate_presentation_slides (search : String → String → String → SearchRes)
    (files : List String) (date : String) (plan : List SongReq) :
    List (List String) :=
  create_summary_slide_texts plan :: genGo search files date [] plan

/-- Reflexivity of the prefix test. -/
theorem listIsPrefix_refl (l : List Char) : listIsPrefix l l = true := by
  induction l with
  | nil => rfl
  | cons c t ih => simp [listIsPrefix, ih]

/-- A string contains itself. -/
theorem containsSub_self (l : List Char) : containsSub l l = true := by
  cases l with
  | nil => rfl
  | cons c t => simp [containsSub, listIsPrefix_refl]

/-- Containment is preserved by prepending characters. -/
theorem containsSub_cons (n h : List Char) (c : Char)
    (hc : containsSub n h = true) : containsSub n (c :: h) = true := by
  simp [containsSub, hc]

/-- Containment is preserved by prepending a list. -/
theorem containsSub_append_left (n pre h : List Char)
    (hc : containsSub n h = true) : containsSub n (pre ++ h) = true := by
  induction pre with
  | nil => exact hc
  | cons c t ih => exact containsSub_cons _ _ _ ih

/-- Data of a string concatenation. -/
theorem strData_append (a b : String) : (a ++ b).data = a.data ++ b.data := rfl

/-- Every string contains itself as a substring. -/
theorem containsStr_self (s : String) : containsStr s s = true :=
  containsSub_self s.data

/-- A suffix is contained in the concatenation. -/
theorem containsStr_prefix (pre t : String) : containsStr t (pre ++ t) = true := by
  unfold containsStr
  rw [strData_append]
  exact containsSub_append_left _ _ _ (containsSub_self _)

/-- The loop keeps nothing when every file's search comes back empty. -/
theorem scanFiles_all_empty (s1 : String → SearchRes) (used : UsedMap)
    (hymn : String) (files : List String) (b : Best)
    (hs : ∀ pf, (s1 pf).content = []) :
    scanFiles s1 used hymn files b = b := by
  induction files generalizing b with
  | nil => rfl
  | cons pf rest ih =>
    rw [scanFiles_cons]
    rw [if_neg (fun h => h.1 (hs pf))]
    exact ih b

/-- `find_best_song_source` returns `(None, None, [], "")` and leaves the
map unchanged when every file's search comes back empty. -/
theorem find_best_all_empty (s1 : String → SearchRes) (files : List String)
    (hymn : String) (used : UsedMap) (hs : ∀ pf, (s1 pf).content = []) :
    find_best_song_source s1 files hymn used = ⟨none, none, [], "", used⟩ := by
  have h0 : scanFiles s1 used hymn files best0 = best0 :=
    scanFiles_all_empty s1 used hymn files best0 hs
  have he := find_best_eq_of_none s1 files hymn used (by rw [h0]; rfl)
  rw [he, h0]
  rfl

/-- The text the claimed placeholder slide actually carries: the section
title slide shows `Hymn No <n>` whenever the request has a hymn number and
the literal "(Song not found)" only otherwise. -/
def notFoundTarget (hymn_num : String) : String :=
  if hymn_num = "" then "(Song not found)" else "Hymn No " ++ hymn_num

/-- The not-found title slide carries the target text. -/
theorem target_in_title_slide (label hymn date : String) :
    ∃ t ∈ add_title_slide_texts label hymn "(Song not found)" date,
      containsStr (notFoundTarget hymn) t = true := by
  by_cases hh : hymn = ""
  · refine ⟨"(Song not found)", ?_, ?_⟩
    · simp [add_title_slide_texts, hh]
    · simp only [notFoundTarget, hh, if_pos]
      exact containsStr_self _
  · refine ⟨"Hymn No " ++ hymn, ?_, ?_⟩
    · simp [add_title_slide_texts, hh]
    · simp only [notFoundTarget, hh, if_neg]
      exact containsStr_self _

/-- The not-found communion intro slide carries the target text. -/
theorem target_in_hc_intro (hymn : String) :
    ∃ t ∈ hc_intro_texts hymn "(Song not found)",
      containsStr (notFoundTarget hymn) t = true := by
  by_cases hh : hymn = ""
  · refine ⟨"Holy Communion - " ++ "(Song not found)", ?_, ?_⟩
    · simp [hc_intro_texts, hh]
    · simp only [notFoundTarget, hh, if_pos]
      exact containsStr_prefix _ _
  · refine ⟨"Holy Communion - Hymn No " ++ hymn, ?_, ?_⟩
    · simp [hc_intro_texts, hh]
    · simp only [notFoundTarget, hh, if_neg]
      have hd : ("Holy Communion - Hymn No " ++ hymn).data
          = ("Holy Communion - ").data ++ ("Hymn No " ++ hymn).data := by
        rw [strData_append, strData_append, ← List.append_assoc]
        have hsplit : ("Holy Communion - Hymn No ").data
            = ("Holy Communion - ").data ++ ("Hymn No ").data := by decide
        rw [hsplit]
      unfold containsStr
      rw [hd]
      exact containsSub_append_left _ _ _ (containsSub_self _)

/-- Labeled-song processors with an empty hint and an all-empty search emit
exactly one title slide with the "(Song not found)" fallback. -/
theorem process_labeled_song_all_empty (s1 : String → SearchRes)
    (files : List String) (label hymn date : String) (used : UsedMap)
    (hs : ∀ pf, (s1 pf).content = []) :
    process_labeled_song s1 files label hymn "" date used
      = ([add_title_slide_texts label hymn "(Song not found)" date], used) := by
  unfold process_labeled_song
  rw [find_best_all_empty s1 files hymn used hs]
  rfl

/-- Offertory processor under the same conditions. -/
theorem process_offertory_all_empty (s1 : String → SearchRes)
    (files : List String) (hymn date : String) (used : UsedMap)
    (hs : ∀ pf, (s1 pf).content = []) :
    process_offertory_model s1 files hymn "" date used
      = ([add_title_slide_texts "Offertory" hymn "(Song not found)" date,
          [if hymn ≠ "" then "Offertory: Hymn No " ++ hymn else "Offertory"]],
         used) := by
  unfold process_offertory_model
  rw [find_best_all_empty s1 files hymn used hs]
  rfl

/-- Communion processor under the same conditions. -/
theorem process_communion_all_empty (s1 : String → SearchRes)
    (files : List String) (hymn : String) (used : UsedMap)
    (hs : ∀ pf, (s1 pf).content = []) :
    process_communion_model s1 files hymn "" used
      = ([hc_intro_texts hymn "(Song not found)"], used) := by
  unfold process_communion_model
  rw [find_best_all_empty s1 files hymn used hs]
  rfl

/-- Any non-Message request with an empty title hint whose search yields no
candidate in any file produces, whatever the used-range state, a slide
carrying the target text. -/
theorem processReq_all_empty_target (search : String → String → String → SearchRes)
    (files : List String) (date : String) (used : UsedMap) (r : SongReq)
    (hhint : r.title_hint = "") (hlabel : pyLower r.label ≠ "message")
    (hempty : ∀ pf, (search pf r.hymn_num r.title_hint).content = []) :
    ∃ slide ∈ (processReq search files date used r).1,
      ∃ t ∈ slide, containsStr (notFoundTarget r.hymn_num) t = true := by
  obtain ⟨hymn, label, hint⟩ := r
  dsimp only at hhint hlabel hempty ⊢
  subst hhint
  unfold processReq
  dsimp only
  repeat' split
  all_goals
    first
      | exact absurd (by assumption) hlabel
      | (rw [process_offertory_all_empty _ files hymn date used hempty]
         exact ⟨add_title_slide_texts "Offertory" hymn "(Song not found)" date,
           by simp, target_in_title_slide "Offertory" hymn date⟩)
      | (rw [process_communion_all_empty _ files hymn used hempty]
         exact ⟨_, List.mem_singleton.mpr rfl, target_in_hc_intro hymn⟩)
      | (rw [process_labeled_song_all_empty _ files _ hymn date used hempty]
         exact ⟨_, List.mem_singleton.mpr rfl, target_in_title_slide _ hymn date⟩)

/-- A slide emitted for any plan member survives into the full output. -/
theorem genGo_mem_of (search : String → String → String → SearchRes)
    (files : List String) (date : String) (P : List String → Prop) (r : SongReq)
    (hP : ∀ used, ∃ slide ∈ (processReq search files date used r).1, P slide) :
    ∀ (plan : List SongReq), r ∈ plan → ∀ used,
      ∃ slide ∈ genGo search files date used plan, P slide := by
  intro plan
  induction plan with
  | nil => intro h; cases h
  | cons r0 rest ih =>
    intro hmem used
    rcases List.mem_cons.mp hmem with he | hm
    · obtain ⟨slide, hs, hp⟩ := hP used
      rw [he] at hs
      exact ⟨slide, List.mem_append.mpr (Or.inl hs), hp⟩
    · obtain ⟨slide, hs, hp⟩ := ih hm ((processReq search files date used r0).2)
      exact ⟨slide, List.mem_append.mpr (Or.inr hs), hp⟩

/-- A search that matches nothing anywhere. -/
def noSearch : String → String → String → SearchRes := fun _ _ _ => ⟨none, [], ""⟩

/-- Claim C6, counterexample.  For the plan with the single request
(hymn 999, Opening, no hint) against a library where hymn 999 matches no
run, generation completes — but no slide of the output carries the literal
"(Song not found)": the title slide shows "Hymn No 999", because
`add_title_slide` prefers the hymn number over the passed placeholder
text. -/
theorem C6_placeholder_counterexample :
    generate_presentation_slides noSearch ["lib.pptx"] "08 February 2026"
        [⟨"999", "Opening", ""⟩]
      = [["Song list", "Opening", "999"],
         ["Mar Thoma Syrian Church, Singapore",
          "English Holy Communion Service – 08 February 2026",
          "Opening", "Hymn No 999"]] ∧
    ∀ slide ∈ generate_presentation_slides noSearch ["lib.pptx"]
        "08 February 2026" [⟨"999", "Opening", ""⟩],
      ∀ t ∈ slide, containsStr "(Song not found)" t = false := by
  refine ⟨by decide, by decide⟩

/-- Claim C6, amended.  Generation is total (no exception for an
unresolved hymn; the only raise in `generate_presentation` is the
missing-template check) and a request with an empty title hint whose hymn
number matches no run in any source file still yields a placeholder slide:
it carries "Hymn No <n>" when the request has a hymn number, and the
literal "(Song not found)" only when it has neither hymn number nor title
hint. -/
theorem C6_not_found_fallback (search : String → String → String → SearchRes)
    (files : List String) (date : String) (plan : List SongReq) (r : SongReq)
    (hmem : r ∈ plan) (hhint : r.title_hint = "")
    (hlabel : pyLower r.label ≠ "message")
    (hempty : ∀ pf, (search pf r.hymn_num r.title_hint).content = []) :
    ∃ slide ∈ generate_presentation_slides search files date plan,
      ∃ t ∈ slide, containsStr (notFoundTarget r.hymn_num) t = true := by
  obtain ⟨slide, hs, hp⟩ :=
    genGo_mem_of search files date
      (fun slide => ∃ t ∈ slide, containsStr (notFoundTarget r.hymn_num) t = true) r
      (fun used => processReq_all_empty_target search files date used r hhint
        hlabel hempty)
      plan hmem []
  exact ⟨slide, List.mem_cons_of_mem _ hs, hp⟩

/-- Witness for C6: the request for hymn 999 with no hint against an empty
library yields a slide carrying the target text. -/
theorem C6_not_found_fallback_witness :
    ∃ slide ∈ generate_presentation_slides noSearch ["lib.pptx"]
        "08 February 2026" [⟨"999", "Opening", ""⟩],
      ∃ t ∈ slide, containsStr (notFoundTarget "999") t = true :=
  C6_not_found_fallback noSearch ["lib.pptx"] "08 February 2026"
    [⟨"999", "Opening", ""⟩] ⟨"999", "Opening", ""⟩
    (List.mem_singleton.mpr rfl) rfl (by decide) (fun _ => rfl)

/-! Batch plan-file parser.  The `--batch` branch of `main`
(generate_english_hcs_ppt.py lines 2189–2221): one request per
pipe-delimited line, `#` comments, `# Language:` and date directives, a
bare `Message` marker; any other line falls through all branches and is
skipped without any output. -/

/-- Parser state: current language, optional service date, accumulated
requests, and the lines printed so far (the loop prints only the two
directive confirmations). -/
structure BatchState where
  language : String
  service_date : Option String
  songs : List SongReq
  prints : List String
deriving DecidableEq

/-- Python `s.split(sep, 1)[1]` for a single-character separator; callers
reach it only on lines whose tested prefix contains the separator. -/
def afterFirst (sep : Char) (s : String) : String :=
  String.mk ((s.data.dropWhile (fun c => !(c == sep))).drop 1)

/-- Python `s.startswith(pre)`. -/
def pyStartsWith (s pre : String) : Bool := listIsPrefix pre.data s.data

/-- Worker for Python `str.split` with a one-character separator. -/
def splitOnCharGo (sep : Char) : List Char → List Char → List (List Char)
  | [], cur => [cur.reverse]
  | c :: t, cur =>
    if c == sep then cur.reverse :: splitOnCharGo sep t []
    else splitOnCharGo sep t (c :: cur)

/-- Python `s.split(sep)` for a one-character separator. -/
def pySplit (sep : Char) (s : String) : List String :=
  (splitOnCharGo sep s.data []).map String.mk

/-- One line of the batch loop (lines 2197–2221). -/
def parseBatchLine (st : BatchState) (line0 : String) : BatchState :=
  let line := pyStrip line0
  if line = "" then st
  else if pyStartsWith line "# Language:" then
    let language := pyStrip (afterFirst ':' line)
    { st with language := language,
              prints := st.prints ++ ["  Language set to: " ++ language] }
  else if pyStartsWith (pyLower line) "# date:" = true ∨ pyStartsWith (pyLower line) "date:" = true then
    let d := pyStrip (afterFirst ':' line)
    { st with service_date := some d,
              prints := st.prints ++ ["  Service date set to: " ++ d] }
  else if pyStartsWith line "#" then st
  else
    let parts := pySplit '|' line
    if parts.length ≥ 2 then
      { st with songs := st.songs ++
          [⟨pyStrip (parts.getD 0 ""), pyStrip (parts.getD 1 ""),
            if parts.length > 2 then pyStrip (parts.getD 2 "") else ""⟩] }
    else if pyLower (pyStrip (parts.getD 0 "")) = "message" then
      { st with songs := st.songs ++ [⟨"", "Message", ""⟩] }
    else st

/-- Embedding of the batch plan-file loop over the file's lines. -/
def parse_batch_lines (lines : List String) : BatchState :=
  lines.foldl parseBatchLine ⟨"English", none, [], []⟩

/-- A malformed plan line in the claim's sense: non-empty after stripping,
not a comment or directive, fewer than two pipe-delimited fields, and not
the bare `Message` marker. -/
def isMalformedLine (line0 : String) : Prop :=
  pyStrip line0 ≠ "" ∧
  pyStartsWith (pyStrip line0) "# Language:" = false ∧
  pyStartsWith (pyLower (pyStrip line0)) "# date:" = false ∧
  pyStartsWith (pyLower (pyStrip line0)) "date:" = false ∧
  pyStartsWith (pyStrip line0) "#" = false ∧
  (pySplit '|' (pyStrip line0)).length < 2 ∧
  pyLower (pyStrip ((pySplit '|' (pyStrip line0)).getD 0 "")) ≠ "message"

/-- A malformed line leaves the whole parser state unchanged: no request,
no directive change — and also no printed warning. -/
theorem parseBatchLine_malformed (st : BatchState) (bad : String)
    (hb : isMalformedLine bad) : parseBatchLine st bad = st := by
  obtain ⟨h1, h2, h3, h4, h5, h6, h7⟩ := hb
  unfold parseBatchLine
  dsimp only
  rw [if_neg h1]
  rw [if_neg (by rw [h2]; exact Bool.false_ne_true)]
  rw [if_neg (by rw [h3, h4]; simp)]
  rw [if_neg (by rw [h5]; exact Bool.false_ne_true)]
  rw [if_neg (by omega)]
  rw [if_neg h7]

/-- Claim C9, counterexample.  A malformed line is skipped and parsing
continues — the later well-formed line still yields its request — but no
warning is printed: the batch loop of `main` silently falls through all
branches for such a line (the interactive prompt, not the batch parser,
is what prints a warning). -/
theorem C9_no_warning_counterexample :
    (parse_batch_lines ["not a valid line", "42|Opening|Amazing Grace"]).songs
      = [⟨"42", "Opening", "Amazing Grace"⟩] ∧
    (parse_batch_lines ["not a valid line", "42|Opening|Amazing Grace"]).prints
      = [] := by
  exact ⟨by decide, by decide⟩

/-- Claim C9, amended.  A malformed plan line is skipped silently (no
warning is printed) and does not abort parsing: removing it from the file
leaves the parser state — in particular every request produced by the
remaining lines — unchanged. -/
theorem C9_malformed_line_skipped (xs ys : List String) (bad : String)
    (hb : isMalformedLine bad) :
    parse_batch_lines (xs ++ bad :: ys) = parse_batch_lines (xs ++ ys) := by
  unfold parse_batch_lines
  rw [List.foldl_append, List.foldl_append, List.foldl_cons,
    parseBatchLine_malformed _ _ hb]

/-- Witness for C9: dropping the malformed middle line of a three-line
plan leaves the parsed requests unchanged. -/
theorem C9_malformed_line_skipped_witness :
    parse_batch_lines (["91|Opening|"] ++ "not a valid line" :: ["313|Communion|"])
      = parse_batch_lines (["91|Opening|"] ++ ["313|Communion|"]) :=
  C9_malformed_line_skipped ["91|Opening|"] ["313|Communion|"] "not a valid line"
    (by refine ⟨by decide, by decide, by decide, by decide, by decide, by decide,
      by decide⟩)

end HCS

